import Mathlib

/-!
# Server side of the MySQL handshake: `server/connection.go`

A shallow embedding of `src/server/connection.go`.

* Go strings are lists of bytes (`List Nat`).  A Go byte slice has a length and a
  capacity: it is given by the list of its bytes up to its length and by the list of the
  bytes that follow them in its backing array, up to its capacity (`spare`).  Every slice
  expression carries the run-time check of Go against the capacity and every index
  expression the check against the length: a failed check is `Completion.panicked`.
* Go `int` positions are `Int` (the positions of this file stay far below `2^63`).
* `uint8`/`uint16`/`uint32` conversions are written with an explicit `% 2^w`.
* The package `program1/mysql` is not part of the sources at hand.  What the code uses
  from it is collected in the structure `Mysql` and every theorem holds for every value
  of that structure; the three header bytes, whose values the specification fixes, are
  definitions.
* The method `DispatchMessage` of `ClientConn` is declared in another file of the package
  `server`; the loop of `Run` takes it as an argument.  The loop is run for a bounded
  number of iterations, and a loop that ends gives the same result for every larger bound.
-/

namespace Server

/-! ## Go slices -/

/-- The slice expression `s[lo:hi]` of Go, for the slice whose bytes are `s` and whose
backing array goes on with the bytes `spare`, so that `len(s)` is `s.length` and `cap(s)`
is `s.length + spare.length`.  Go checks `0 <= lo <= hi <= cap(s)`, and the result may
reach into the spare bytes; `none` is the run-time panic "slice bounds out of range". -/
def goSlice (s spare : List Nat) (lo hi : Int) : Option (List Nat) :=
  if 0 ≤ lo ∧ lo ≤ hi ∧ hi ≤ ((s.length + spare.length : Nat) : Int) then
    some (((s ++ spare).drop lo.toNat).take (hi - lo).toNat)
  else none

/-- The slice expression `s[lo:]`, that is `s[lo:len(s)]`. -/
def goSliceFrom (s spare : List Nat) (lo : Int) : Option (List Nat) :=
  goSlice s spare lo (s.length : Int)

/-- The slice expression `s[:hi]`, that is `s[0:hi]`. -/
def goSliceTo (s spare : List Nat) (hi : Int) : Option (List Nat) :=
  goSlice s spare 0 hi

/-- The index expression `s[i]`: `none` is the run-time panic "index out of range". -/
def goIndex (s : List Nat) (i : Int) : Option Nat :=
  if 0 ≤ i then s.get? i.toNat else none

/-- The function `bytes.IndexByte(s, c)`: the index of the first `c` in `s`, or `-1`. -/
def IndexByte (s : List Nat) (c : Nat) : Int :=
  if c ∈ s then (s.indexOf c : Int) else -1

/-- The function `binary.LittleEndian.Uint32(b)`: it reads `b[3]` first (a bounds check)
and returns `uint32(b[0]) | uint32(b[1])<<8 | uint32(b[2])<<16 | uint32(b[3])<<24`. -/
def Uint32 (b : List Nat) : Option Nat :=
  match b with
  | b0 :: b1 :: b2 :: b3 :: _ =>
    some ((b0 ||| (b1 <<< 8) % 2 ^ 32 ||| (b2 <<< 16) % 2 ^ 32 ||| (b3 <<< 24) % 2 ^ 32) % 2 ^ 32)
  | _ => none

/-- The function `bytes.Equal(a, b)`. -/
def bytesEqual (a b : List Nat) : Bool :=
  decide (a = b)

/-- The value of a byte string read as a little-endian number. -/
def leValue : List Nat → Nat
  | [] => 0
  | b :: bs => b + 256 * leValue bs

/-- Every element is a byte. -/
def isBytes (s : List Nat) : Prop :=
  ∀ b ∈ s, b < 256

instance (s : List Nat) : Decidable (isBytes s) := by
  unfold isBytes; infer_instance

/-! ## The types of the absent package `mysql` -/

/-- Modelled from the spec: the structured protocol error `mysql.SqlError` (code, SQL
state, message); the type is declared in the absent package `mysql`. -/
structure SqlError where
  Code : Nat
  State : List Nat
  Message : List Nat
deriving DecidableEq, Repr

/-- A Go `error` value: either a `*mysql.SqlError` or any other error, of which only the
text `e.Error()` is observed. -/
inductive GoError where
  | sql (m : SqlError)
  | other (text : List Nat)
deriving DecidableEq, Repr

/-- Modelled from the spec: the result `mysql.Result` of a command (status, insert id,
affected rows); the type is declared in the absent package `mysql`. -/
structure Result where
  Status : Nat
  InsertId : Nat
  AffectedRows : Nat
deriving DecidableEq, Repr

/-- Modelled from the spec: the framing codec `mysql.PacketIO`.  Only its field `Sequence`
is touched by `connection.go`; `wire` stands for the rest of its state. -/
structure PacketIO where
  Sequence : Nat
  wire : List (List Nat)
deriving DecidableEq, Repr

/-- What `connection.go` uses of the absent package `mysql`: constants whose values the
specification does not give, and functions. -/
structure Mysql where
  CLIENT_LONG_PASSWORD : Nat
  CLIENT_LONG_FLAG : Nat
  CLIENT_CONNECT_WITH_DB : Nat
  CLIENT_PROTOCOL_41 : Nat
  CLIENT_TRANSACTIONS : Nat
  CLIENT_SECURE_CONNECTION : Nat
  ProtocolVersion : Nat
  ServerVersion : List Nat
  DEFAULT_COLLATION_ID : Nat
  ER_ACCESS_DENIED_ERROR : Nat
  ER_UNKNOWN_ERROR : Nat
  CalcPassword : List Nat → List Nat → List Nat
  PutLengthEncodedInt : Nat → List Nat
  NewDefaultError : Nat → List (List Nat) → SqlError
  NewError : Nat → List Nat → SqlError
  ReadPacket : PacketIO → PacketIO × (List Nat × List Nat × Option GoError)
  WritePacket : PacketIO → List Nat → PacketIO × Option GoError
  WritePacketBatch : PacketIO → List Nat → List Nat → Bool → PacketIO × (List Nat × Option GoError)

/-- Modelled from the spec: `mysql.OK_HEADER`, the header byte `0x00` of an OK packet. -/
def OK_HEADER : Nat := 0x00

/-- Modelled from the spec: `mysql.ERR_HEADER`, the header byte `0xff` of an ERROR packet. -/
def ERR_HEADER : Nat := 0xff

/-- Modelled from the spec: `mysql.EOF_HEADER`, the header byte `0xfe` of an EOF packet. -/
def EOF_HEADER : Nat := 0xfe

/-! ## The session -/

/-- The transport `net.Conn` of a session: the text of `RemoteAddr().String()` and the
number of calls of `Close()` made on it so far. -/
structure NetConn where
  RemoteAddr : List Nat
  closeCalls : Nat
deriving DecidableEq, Repr

/-- The struct `ClientConn`.  The slice `salt` is given by its bytes `salt` and by the
bytes `saltSpare` that follow them in its backing array.  The field `written` is not a
field of the Go struct: it records, oldest first, every slice handed to
`c.pkg.WritePacket`. -/
structure ClientConn where
  pkg : PacketIO
  c : NetConn
  capability : Nat
  connectionId : Nat
  status : Nat
  collation : Nat
  charset : List Nat
  user : List Nat
  db : List Nat
  salt : List Nat
  saltSpare : List Nat
  closed : Bool
  lastInsertId : Int
  affectedRows : Int
  stmtId : Nat
  written : List (List Nat)
deriving DecidableEq, Repr

/-- How a call ends: it returns its `error` result (`none` is `nil`), or it panics. -/
inductive Completion where
  | returned (err : Option GoError)
  | panicked
deriving DecidableEq, Repr

/-- The variable `DEFAULT_CAPABILITY` (line 16). -/
def DEFAULT_CAPABILITY (M : Mysql) : Nat :=
  (M.CLIENT_LONG_PASSWORD ||| M.CLIENT_LONG_FLAG ||| M.CLIENT_CONNECT_WITH_DB |||
    M.CLIENT_PROTOCOL_41 ||| M.CLIENT_TRANSACTIONS ||| M.CLIENT_SECURE_CONNECTION) % 2 ^ 32

/-- The call `c.pkg.WritePacket(data)`: the codec moves on and answers, and the slice is
recorded in `written`. -/
def WritePacket (M : Mysql) (c : ClientConn) (data : List Nat) : ClientConn × Option GoError :=
  let r := M.WritePacket c.pkg data
  ({ c with pkg := r.1, written := c.written ++ [data] }, r.2)

/-! ## `readHandshakeResponse` -/

/-- The local `User` of `readHandshakeResponse` (line 119): the string "root". -/
def User : List Nat := [0x72, 0x6f, 0x6f, 0x74]

/-- The local `Password` of `readHandshakeResponse` (line 120): the string "123". -/
def Password : List Nat := [0x31, 0x32, 0x33]

/-- The string "Yes" (line 130). -/
def Yes : List Nat := [0x59, 0x65, 0x73]

/-- The values the parse of lines 96-116 leaves in the locals `auth`, `authLen`, `pos`. -/
structure AuthLocals where
  auth : List Nat
  authLen : Int
  pos : Int
deriving DecidableEq, Repr

/-- Lines 96-116 of `readHandshakeResponse`: the parse of the capability flags, the
username and the auth response.  The second component is `none` when a bounds check
fails; the session is returned as it is at that moment. -/
def readHandshakeResponse.parse (c : ClientConn) (data spare : List Nat) :
    ClientConn × Option AuthLocals :=
  let pos : Int := 0
  -- c.capability = binary.LittleEndian.Uint32(data[:4])
  match (goSliceTo data spare 4).bind Uint32 with
  | none => (c, none)
  | some flags =>
  let c := { c with capability := flags }
  let pos := pos + 4
  let pos := pos + 4
  let pos := pos + 1
  let pos := pos + 23
  -- c.user = string(data[pos : pos+bytes.IndexByte(data[pos:], 0)])
  match goSliceFrom data spare pos with
  | none => (c, none)
  | some tail =>
  match goSlice data spare pos (pos + IndexByte tail 0) with
  | none => (c, none)
  | some name =>
  let c := { c with user := name }
  let pos := pos + ((c.user.length : Int) + 1)
  -- authLen := int(data[pos])
  match goIndex data pos with
  | none => (c, none)
  | some b =>
  let authLen : Int := (b : Int)
  let pos := pos + 1
  -- auth := data[pos : pos+authLen]
  match goSlice data spare pos (pos + authLen) with
  | none => (c, none)
  | some auth => (c, some { auth := auth, authLen := authLen, pos := pos })

/-- Lines 118-145 of `readHandshakeResponse`: the credential check and the parse of the
database name. -/
def readHandshakeResponse.check (M : Mysql) (c : ClientConn) (data spare : List Nat)
    (l : AuthLocals) : ClientConn × Completion :=
  let checkAuth := M.CalcPassword c.salt Password
  if c.user ≠ User ∨ bytesEqual l.auth checkAuth = false then
    (c, .returned (some (.sql
      (M.NewDefaultError M.ER_ACCESS_DENIED_ERROR [c.user, c.c.RemoteAddr, Yes]))))
  else
  let pos := l.pos + l.authLen
  let db : List Nat := []
  if c.capability &&& M.CLIENT_CONNECT_WITH_DB > 0 then
    -- if len(data[pos:]) == 0 { return nil }
    match goSliceFrom data spare pos with
    | none => (c, .panicked)
    | some rest =>
    if rest.length = 0 then (c, .returned none) else
    -- db = string(data[pos : pos+bytes.IndexByte(data[pos:], 0)])
    match goSliceFrom data spare pos with
    | none => (c, .panicked)
    | some tail =>
    match goSlice data spare pos (pos + IndexByte tail 0) with
    | none => (c, .panicked)
    | some name =>
    let db := name
    -- pos += len(c.db) + 1 : the local pos is not read again
    ({ c with db := db }, .returned none)
  else
    ({ c with db := db }, .returned none)

/-- Lines 96-145 of `readHandshakeResponse`: what is done with the payload read, the
slice of bytes `data` and spare bytes `spare`. -/
def readHandshakeResponse.body (M : Mysql) (c : ClientConn) (data spare : List Nat) :
    ClientConn × Completion :=
  match readHandshakeResponse.parse c data spare with
  | (c, none) => (c, .panicked)
  | (c, some l) => readHandshakeResponse.check M c data spare l

/-- The method `readHandshakeResponse` (lines 91-145).  `ReadPacket` returns the payload
as a slice: its bytes and the spare bytes of its backing array. -/
def readHandshakeResponse (M : Mysql) (c : ClientConn) : ClientConn × Completion :=
  match M.ReadPacket c.pkg with
  | (p, _, _, some err) => ({ c with pkg := p }, .returned (some err))
  | (p, data, spare, none) => readHandshakeResponse.body M { c with pkg := p } data spare

/-! ## The packets the server writes -/

/-- The method `writeInitialHandshake` (lines 44-88).  The two slice expressions on the
salt carry their bounds checks. -/
def writeInitialHandshake (M : Mysql) (c : ClientConn) : ClientConn × Completion :=
  -- data := make([]byte, 4, 128)
  let data : List Nat := List.replicate 4 0
  let data := data ++ [M.ProtocolVersion]
  let data := data ++ M.ServerVersion
  let data := data ++ [0]
  let data := data ++ [c.connectionId % 256, (c.connectionId >>> 8) % 256,
    (c.connectionId >>> 16) % 256, (c.connectionId >>> 24) % 256]
  -- data = append(data, c.salt[0:8]...)
  match goSlice c.salt c.saltSpare 0 8 with
  | none => (c, .panicked)
  | some part1 =>
  let data := data ++ part1
  let data := data ++ [0]
  let data := data ++ [DEFAULT_CAPABILITY M % 256, (DEFAULT_CAPABILITY M >>> 8) % 256]
  let data := data ++ [M.DEFAULT_COLLATION_ID % 256]
  let data := data ++ [c.status % 256, (c.status >>> 8) % 256]
  let data := data ++ [(DEFAULT_CAPABILITY M >>> 16) % 256, (DEFAULT_CAPABILITY M >>> 24) % 256]
  let data := data ++ [0x15]
  let data := data ++ [0, 0, 0, 0, 0, 0, 0, 0, 0, 0]
  -- data = append(data, c.salt[8:]...)
  match goSliceFrom c.salt c.saltSpare 8 with
  | none => (c, .panicked)
  | some part2 =>
  let data := data ++ part2
  let data := data ++ [0]
  let r := WritePacket M c data
  (r.1, .returned r.2)

/-- The method `writeOK` (lines 172-190); `none` is the argument `nil`. -/
def writeOK (M : Mysql) (c : ClientConn) (r : Option Result) : ClientConn × Option GoError :=
  let r : Result :=
    match r with
    | none => { Status := c.status, InsertId := 0, AffectedRows := 0 }
    | some r => r
  -- data := make([]byte, 4, 32)
  let data : List Nat := List.replicate 4 0
  let data := data ++ [OK_HEADER]
  let data := data ++ M.PutLengthEncodedInt r.AffectedRows
  let data := data ++ M.PutLengthEncodedInt r.InsertId
  let data :=
    if c.capability &&& M.CLIENT_PROTOCOL_41 > 0 then
      (data ++ [r.Status % 256, (r.Status >>> 8) % 256]) ++ [0, 0]
    else data
  WritePacket M c data

/-- The method `writeError` (lines 191-212), for an error value that is not `nil`. -/
def writeError (M : Mysql) (c : ClientConn) (e : GoError) : ClientConn × Option GoError :=
  let m : SqlError :=
    match e with
    | .sql m => m
    | .other text => M.NewError M.ER_UNKNOWN_ERROR text
  -- data := make([]byte, 4, 16+len(m.Message))
  let data : List Nat := List.replicate 4 0
  let data := data ++ [ERR_HEADER]
  let data := data ++ [m.Code % 256, (m.Code >>> 8) % 256]
  let data :=
    if c.capability &&& M.CLIENT_PROTOCOL_41 > 0 then
      (data ++ [0x23]) ++ m.State
    else data
  let data := data ++ m.Message
  WritePacket M c data

/-- The method `writeEOF` (lines 214-225). -/
def writeEOF (M : Mysql) (c : ClientConn) (status : Nat) : ClientConn × Option GoError :=
  -- data := make([]byte, 4, 9)
  let data : List Nat := List.replicate 4 0
  let data := data ++ [EOF_HEADER]
  let data :=
    if c.capability &&& M.CLIENT_PROTOCOL_41 > 0 then
      (data ++ [0, 0]) ++ [status % 256, (status >>> 8) % 256]
    else data
  WritePacket M c data

/-- The method `writeEOFBatch` (lines 227-237): the result is the buffer and the error
that `c.pkg.WritePacketBatch` returns. -/
def writeEOFBatch (M : Mysql) (c : ClientConn) (total : List Nat) (status : Nat)
    (direct : Bool) : ClientConn × (List Nat × Option GoError) :=
  -- data := make([]byte, 4, 9)
  let data : List Nat := List.replicate 4 0
  let data := data ++ [EOF_HEADER]
  let data :=
    if c.capability &&& M.CLIENT_PROTOCOL_41 > 0 then
      (data ++ [0, 0]) ++ [status % 256, (status >>> 8) % 256]
    else data
  let r := M.WritePacketBatch c.pkg total data direct
  ({ c with pkg := r.1 }, r.2)

/-! ## The handshake, the close and the command loop -/

/-- The method `Handshake` (lines 147-170). -/
def Handshake (M : Mysql) (c : ClientConn) : ClientConn × Completion :=
  -- if err := c.writeInitialHandshake(); err != nil { return err }
  match writeInitialHandshake M c with
  | (c, .panicked) => (c, .panicked)
  | (c, .returned (some err)) => (c, .returned (some err))
  | (c, .returned none) =>
  -- if err := c.readHandshakeResponse(); err != nil { return err }
  match readHandshakeResponse M c with
  | (c, .panicked) => (c, .panicked)
  | (c, .returned (some err)) => (c, .returned (some err))
  | (c, .returned none) =>
  -- if err := c.writeOK(nil); err != nil { return err }
  match writeOK M c none with
  | (c, some err) => (c, .returned (some err))
  | (c, none) =>
  -- c.pkg.Sequence = 0
  ({ c with pkg := { c.pkg with Sequence := 0 } }, .returned none)

/-- The method `Close` (lines 238-248): the result of `c.c.Close()` is dropped, the call is
counted in `closeCalls`. -/
def Close (c : ClientConn) : ClientConn × Option GoError :=
  if c.closed then (c, none)
  else
    let c := { c with c := { c.c with closeCalls := c.c.closeCalls + 1 } }
    let c := { c with closed := true }
    (c, none)

/-- The way the loop of `Run` (lines 269-281) is left: the `return` after a failed read,
the `return` after a dispatch that left the session closed, or a panic raised by the
dispatch. -/
inductive LoopExit where
  | readFailed
  | sessionClosed
  | fault
deriving DecidableEq, Repr

/-- What the loop of `Run` does, in order: a call of `ReadPacket`, with the value of the
sequence counter at that moment and the payload read (`none`: the read failed), and a call
of `DispatchMessage`, with the payload handed over, whether the session is closed when
the call ends, and whether the call panicked. -/
inductive Event where
  | read (sequence : Nat) (payload : Option (List Nat))
  | dispatch (payload : List Nat) (closedAfter : Bool) (panicked : Bool)
deriving DecidableEq, Repr

/-- The loop of `Run` (lines 269-281), run for at most `fuel` iterations; `none` is a loop
that has not ended after `fuel` iterations.  `DispatchMessage` is the method of
`ClientConn` of that name, which is declared in another file of the package: it is handed
the session and the payload (its bytes and its spare bytes), leaves the session in some
state, and returns or panics. -/
def Run.loop (M : Mysql)
    (DispatchMessage : ClientConn → List Nat → List Nat → ClientConn × Completion) :
    Nat → ClientConn → Option (ClientConn × LoopExit × List Event)
  | 0, _ => none
  | fuel + 1, c =>
    -- data, err := c.pkg.ReadPacket(); if err != nil { return }
    match M.ReadPacket c.pkg with
    | (p, _, _, some _) =>
      some ({ c with pkg := p }, .readFailed, [.read c.pkg.Sequence none])
    | (p, data, spare, none) =>
      -- c.DispatchMessage(data)
      match DispatchMessage { c with pkg := p } data spare with
      | (c2, .panicked) =>
        some (c2, .fault, [.read c.pkg.Sequence (some data), .dispatch data c2.closed true])
      | (c2, .returned _) =>
        -- if c.closed { return }
        if c2.closed then
          some (c2, .sessionClosed,
            [.read c.pkg.Sequence (some data), .dispatch data true false])
        else
          -- c.pkg.Sequence = 0
          match Run.loop M DispatchMessage fuel { c2 with pkg := { c2.pkg with Sequence := 0 } } with
          | none => none
          | some (c3, exit, log) =>
            some (c3, exit,
              .read c.pkg.Sequence (some data) :: .dispatch data false false :: log)

/-- The method `Run` (lines 253-283).  The deferred function runs however the loop is
left: `recover()` stops a panic, whatever its value, and `c.Close()` is called; the call
then returns to its caller. -/
def Run (M : Mysql)
    (DispatchMessage : ClientConn → List Nat → List Nat → ClientConn × Completion)
    (fuel : Nat) (c : ClientConn) : Option (ClientConn × Completion × List Event) :=
  match Run.loop M DispatchMessage fuel c with
  | none => none
  | some (c, _, log) => some ((Close c).1, .returned none, log)

/-! ## The layouts the specification gives -/

/-- The `k` little-endian bytes of a number: the least significant byte first. -/
def littleEndian : Nat → Nat → List Nat
  | 0, _ => []
  | k + 1, n => n % 256 :: littleEndian k (n / 256)

/-- The greeting in the words of the specification, after the 4 reserved bytes: protocol
version, server version and a 0 byte, connection id, the first 8 bytes of the salt, a 0
byte, the low half of the default capabilities, the collation byte, the status, the high
half of the default capabilities, the byte `0x15`, ten 0 bytes, the rest of the salt and a
0 byte. -/
def greetingLayout (M : Mysql) (connectionId status : Nat) (salt : List Nat) : List Nat :=
  [M.ProtocolVersion] ++ M.ServerVersion ++ [0] ++ littleEndian 4 connectionId ++
    salt.take 8 ++ [0] ++ littleEndian 2 (DEFAULT_CAPABILITY M) ++
    [M.DEFAULT_COLLATION_ID % 256] ++ littleEndian 2 status ++
    littleEndian 2 (DEFAULT_CAPABILITY M / 2 ^ 16) ++ [0x15] ++ List.replicate 10 0 ++
    salt.drop 8 ++ [0]

/-- Modelled from the spec: what the absent helper `mysql.NewError(code, message)` returns,
a structured error that carries the given code, a 5-byte SQL state, and the message text
unchanged. -/
def NewErrorSpec (M : Mysql) : Prop :=
  ∀ code text, (M.NewError code text).Code = code ∧ (M.NewError code text).State.length = 5 ∧
    (M.NewError code text).Message = text

/-- The decoding of a length-encoded integer from the front of a byte string: a first byte
up to 250 is the value; `0xfc`, `0xfd` and `0xfe` announce 2, 3 and 8 little-endian bytes.
The result is the value and the bytes left. -/
def decodeLengthEncodedInt : List Nat → Option (Nat × List Nat)
  | [] => none
  | b :: rest =>
    if b ≤ 250 then some (b, rest)
    else if b = 0xfc then
      if 2 ≤ rest.length then some (leValue (rest.take 2), rest.drop 2) else none
    else if b = 0xfd then
      if 3 ≤ rest.length then some (leValue (rest.take 3), rest.drop 3) else none
    else if b = 0xfe then
      if 8 ≤ rest.length then some (leValue (rest.take 8), rest.drop 8) else none
    else none

/-- The decoding of an OK packet against the layout of the specification under
`CLIENT_PROTOCOL_41`: 4 reserved bytes are skipped, then the header `0x00`, two
length-encoded integers (affected rows, insert id), the status as 2 little-endian bytes
and 2 reserved bytes.  The result is the three values and the bytes left. -/
def decodeOK (packet : List Nat) : Option (Result × List Nat) :=
  if packet.length < 4 then none
  else
    match packet.drop 4 with
    | 0x00 :: rest =>
      match decodeLengthEncodedInt rest with
      | none => none
      | some (affectedRows, rest) =>
        match decodeLengthEncodedInt rest with
        | none => none
        | some (insertId, rest) =>
          match rest with
          | s0 :: s1 :: _ :: _ :: rest =>
            some ({ Status := leValue [s0, s1], InsertId := insertId,
                    AffectedRows := affectedRows }, rest)
          | _ => none
    | _ => none

/-- The order of the loop of `Run`, read off its events: every read but the first finds
the sequence counter at 0; a failed read is the last event; a payload read is dispatched
next, once; and only a dispatch that returns with the session open is followed by
another read. -/
def orderly : Bool → List Event → Bool
  | first, [.read s none] => first || s == 0
  | first, .read s (some d) :: .dispatch d2 closedAfter panicked :: rest =>
    (first || s == 0) && d == d2 &&
      (if closedAfter || panicked then rest.isEmpty else orderly false rest)
  | _, _ => false

/-- The payloads read by the loop, in order. -/
def payloadsRead : List Event → List (List Nat)
  | [] => []
  | .read _ (some d) :: rest => d :: payloadsRead rest
  | _ :: rest => payloadsRead rest

/-- The payloads dispatched by the loop, in order. -/
def payloadsDispatched : List Event → List (List Nat)
  | [] => []
  | .dispatch d _ _ :: rest => d :: payloadsDispatched rest
  | _ :: rest => payloadsDispatched rest

/-- The events of the loop checked against the codec and the dispatcher, from the session
`c` on.  A read event must carry the value of the sequence counter at that moment and
what `ReadPacket` returns in that state; the dispatch event after it must carry the
payload just read and what `DispatchMessage` makes of the session (closed or not,
panicked or not); a failed read, a dispatch that leaves the session closed and a dispatch
that panics must be the last event, and after any other dispatch the counter is set to 0
and the next read follows.  The result is the session at the end and the way the loop is
left; `none` says that these are not the events of the loop run from `c`. -/
def replay (M : Mysql)
    (DispatchMessage : ClientConn → List Nat → List Nat → ClientConn × Completion) :
    ClientConn → List Event → Option (ClientConn × LoopExit)
  | c, [.read s none] =>
    match M.ReadPacket c.pkg with
    | (p, _, _, some _) =>
      if s = c.pkg.Sequence then some ({ c with pkg := p }, .readFailed) else none
    | (_, _, _, none) => none
  | c, .read s (some d) :: .dispatch d2 closedAfter panicked :: rest =>
    match M.ReadPacket c.pkg with
    | (_, _, _, some _) => none
    | (p, data, spare, none) =>
      if s = c.pkg.Sequence ∧ d = data ∧ d2 = data then
        match DispatchMessage { c with pkg := p } data spare with
        | (c2, .panicked) =>
          if panicked = true ∧ closedAfter = c2.closed ∧ rest = [] then some (c2, .fault)
          else none
        | (c2, .returned _) =>
          if panicked = false ∧ closedAfter = c2.closed then
            if c2.closed then
              if rest = [] then some (c2, .sessionClosed) else none
            else replay M DispatchMessage { c2 with pkg := { c2.pkg with Sequence := 0 } } rest
          else none
      else none
  | _, _ => none

/-! ## One value of the absent package, to run the model -/

/-- Rotation to the left of a 32-bit word. -/
def rotl32 (x n : Nat) : Nat :=
  ((x <<< n) % 2 ^ 32) ||| (x >>> (32 - n))

/-- The big-endian bytes of a number, `k` of them. -/
def beBytes : Nat → Nat → List Nat
  | 0, _ => []
  | k + 1, x => (x >>> (8 * k)) % 256 :: beBytes k x

/-- The big-endian 32-bit words of a byte string whose length is a multiple of 4. -/
def beWords : List Nat → List Nat
  | b0 :: b1 :: b2 :: b3 :: bs => (b0 <<< 24 ||| b1 <<< 16 ||| b2 <<< 8 ||| b3) :: beWords bs
  | _ => []

/-- The padding of SHA-1: a byte `0x80`, zero bytes up to 56 modulo 64, and the length in
bits as 8 big-endian bytes. -/
def sha1Pad (msg : List Nat) : List Nat :=
  msg ++ [0x80] ++ List.replicate ((119 - msg.length % 64) % 64) 0 ++ beBytes 8 (8 * msg.length)

/-- The message schedule of SHA-1, newest word first: `k` more words are added. -/
def sha1Schedule : Nat → List Nat → List Nat
  | 0, ws => ws
  | k + 1, ws =>
    sha1Schedule k
      (rotl32 (ws.getD 2 0 ^^^ ws.getD 7 0 ^^^ ws.getD 13 0 ^^^ ws.getD 15 0) 1 :: ws)

/-- The five working variables of SHA-1. -/
structure Sha1State where
  a : Nat
  b : Nat
  c : Nat
  d : Nat
  e : Nat
deriving DecidableEq, Repr

/-- One round of SHA-1: round number `i` with the schedule word `w`. -/
def sha1Round (s : Sha1State) (i w : Nat) : Sha1State :=
  let f :=
    if i < 20 then (s.b &&& s.c) ||| ((s.b ^^^ 0xffffffff) &&& s.d)
    else if i < 40 then s.b ^^^ s.c ^^^ s.d
    else if i < 60 then (s.b &&& s.c) ||| (s.b &&& s.d) ||| (s.c &&& s.d)
    else s.b ^^^ s.c ^^^ s.d
  let k :=
    if i < 20 then 0x5a827999 else if i < 40 then 0x6ed9eba1
    else if i < 60 then 0x8f1bbcdc else 0xca62c1d6
  { a := (rotl32 s.a 5 + f + s.e + k + w) % 2 ^ 32, b := s.a, c := rotl32 s.b 30,
    d := s.c, e := s.d }

/-- The rounds of SHA-1 over the schedule, oldest word first, from round `i` on. -/
def sha1Rounds : Sha1State → Nat → List Nat → Sha1State
  | s, _, [] => s
  | s, i, w :: ws => sha1Rounds (sha1Round s i w) (i + 1) ws

/-- The compression of one block of 16 words into the chaining value `h`. -/
def sha1Block (h : Sha1State) (block : List Nat) : Sha1State :=
  let s := sha1Rounds h 0 (sha1Schedule 64 block.reverse).reverse
  { a := (h.a + s.a) % 2 ^ 32, b := (h.b + s.b) % 2 ^ 32, c := (h.c + s.c) % 2 ^ 32,
    d := (h.d + s.d) % 2 ^ 32, e := (h.e + s.e) % 2 ^ 32 }

/-- The compression of `n` successive blocks of 16 words. -/
def sha1Blocks : Nat → Sha1State → List Nat → Sha1State
  | 0, h, _ => h
  | n + 1, h, ws => sha1Blocks n (sha1Block h (ws.take 16)) (ws.drop 16)

/-- The hash SHA-1 of a byte string, 20 bytes. -/
def sha1 (msg : List Nat) : List Nat :=
  let ws := beWords (sha1Pad msg)
  let h := sha1Blocks (ws.length / 16)
    { a := 0x67452301, b := 0xefcdab89, c := 0x98badcfe, d := 0x10325476, e := 0xc3d2e1f0 } ws
  beBytes 4 h.a ++ beBytes 4 h.b ++ beBytes 4 h.c ++ beBytes 4 h.d ++ beBytes 4 h.e

/-- Modelled from the spec: `mysql.CalcPassword`, the MySQL scramble, a double hash and
an exclusive or over the salt and the password:
`SHA1(password) XOR SHA1(salt ++ SHA1(SHA1(password)))`, and nothing for an empty password. -/
def mysqlCalcPassword (scramble password : List Nat) : List Nat :=
  if password.length = 0 then []
  else
    let stage1 := sha1 password
    let hash := sha1 stage1
    List.zipWith (fun x y => x ^^^ y) (sha1 (scramble ++ hash)) stage1

/-- Modelled from the spec: `mysql.PutLengthEncodedInt`, the standard variable-width rule
of the length-encoded integer: one byte below 251, else a marker byte `0xfc`, `0xfd` or
`0xfe` followed by 2, 3 or 8 little-endian bytes. -/
def mysqlPutLengthEncodedInt (n : Nat) : List Nat :=
  if n ≤ 250 then [n]
  else if n ≤ 0xffff then [0xfc, n % 256, (n >>> 8) % 256]
  else if n ≤ 0xffffff then [0xfd, n % 256, (n >>> 8) % 256, (n >>> 16) % 256]
  else [0xfe, n % 256, (n >>> 8) % 256, (n >>> 16) % 256, (n >>> 24) % 256,
    (n >>> 32) % 256, (n >>> 40) % 256, (n >>> 48) % 256, (n >>> 56) % 256]

/-- The SQL state of an error code: "28000" for access denied (1045), else "HY000". -/
def mysqlState (code : Nat) : List Nat :=
  if code = 1045 then [0x32, 0x38, 0x30, 0x30, 0x30] else [0x48, 0x59, 0x30, 0x30, 0x30]

/-- Modelled from the spec: one value of the absent package `mysql`, to run the model on
concrete inputs.  The constants carry their values in the MySQL wire protocol, the
scramble and the length-encoded integer are the standard ones, an error built from
arguments carries them joined by a space, `ReadPacket` hands out the payloads queued in
`wire`, each as a slice with no spare byte, and fails on an empty queue, the writes succeed, and every packet moves the
sequence counter on by one. -/
def mysql : Mysql where
  CLIENT_LONG_PASSWORD := 1
  CLIENT_LONG_FLAG := 4
  CLIENT_CONNECT_WITH_DB := 8
  CLIENT_PROTOCOL_41 := 512
  CLIENT_TRANSACTIONS := 8192
  CLIENT_SECURE_CONNECTION := 32768
  ProtocolVersion := 10
  ServerVersion := [0x35, 0x2e, 0x36, 0x2e, 0x32, 0x30]
  DEFAULT_COLLATION_ID := 33
  ER_ACCESS_DENIED_ERROR := 1045
  ER_UNKNOWN_ERROR := 1105
  CalcPassword := mysqlCalcPassword
  PutLengthEncodedInt := mysqlPutLengthEncodedInt
  NewDefaultError := fun code args =>
    { Code := code, State := mysqlState code, Message := List.intercalate [0x20] args }
  NewError := fun code text => { Code := code, State := mysqlState code, Message := text }
  ReadPacket := fun p =>
    match p.wire with
    | [] => (p, [], [], some (.other [0x45, 0x4f, 0x46]))
    | d :: rest => ({ Sequence := (p.Sequence + 1) % 256, wire := rest }, d, [], none)
  WritePacket := fun p _ => ({ p with Sequence := (p.Sequence + 1) % 256 }, none)
  WritePacketBatch := fun p total data _ =>
    ({ p with Sequence := (p.Sequence + 1) % 256 }, total ++ data, none)

/-- A new session over the given queue of inbound payloads: the salt is the bytes 1 to 20,
the connection id 10001, the status 2 (autocommit), the client address "127.0.0.1:1". -/
def session (inbound : List (List Nat)) : ClientConn where
  pkg := { Sequence := 0, wire := inbound }
  c := { RemoteAddr := [0x31, 0x32, 0x37, 0x2e, 0x30, 0x2e, 0x30, 0x2e, 0x31, 0x3a, 0x31],
         closeCalls := 0 }
  capability := 0
  connectionId := 10001
  status := 2
  collation := 33
  charset := [0x75, 0x74, 0x66, 0x38]
  user := []
  db := []
  salt := [1, 2, 3, 4, 5, 6, 7, 8, 9, 10, 11, 12, 13, 14, 15, 16, 17, 18, 19, 20]
  saltSpare := []
  closed := false
  lastInsertId := 0
  affectedRows := 0
  stmtId := 0
  written := []

/-- A dispatcher to run the model: it reads the command byte `data[0]`, which panics on an
empty payload; the command 1 (quit) closes the session; any other command is answered by
an OK packet. -/
def quitDispatcher (c : ClientConn) (data _spare : List Nat) : ClientConn × Completion :=
  match goIndex data 0 with
  | none => (c, .panicked)
  | some cmd =>
    if cmd = 1 then ((Close c).1, .returned none)
    else ((writeOK mysql c none).1, .returned none)

/-- Modelled from the spec: a command dispatcher (`DispatchMessage` is declared in another
file of the package) that does one of the things the specification allows the command
interpreter to do to the session, "set `closed`", and nothing else: it marks the session
closed, without a call of `Close`, and returns. -/
def markClosedDispatcher (c : ClientConn) (_data _spare : List Nat) : ClientConn × Completion :=
  ({ c with closed := true }, .returned none)

/-- The package `mysql` with a codec that hands out every payload as a slice whose backing
array goes on with the bytes `spare`. -/
def mysqlSpare (spare : List Nat) : Mysql :=
  { mysql with
    ReadPacket := fun p =>
      match p.wire with
      | [] => (p, [], [], some (.other [0x45, 0x4f, 0x46]))
      | d :: rest => ({ Sequence := (p.Sequence + 1) % 256, wire := rest }, d, spare, none) }

/-- The scramble of the password "123" under the salt of `session`. -/
def scramble123 : List Nat :=
  [221, 109, 97, 167, 169, 81, 18, 190, 87, 147, 85, 122, 107, 27, 20, 21, 124, 3, 203, 193]

/-- The handshake response in the words of the specification: the capability flags (4
bytes), the skipped bytes (4 of the maximum packet size, 1 of the charset, 23 reserved),
the username, a 0 byte, the length byte of the auth response, the auth response, and the
bytes that follow it. -/
def response (flags skip name auth trailing : List Nat) : List Nat :=
  flags ++ (skip ++ (name ++ (0 :: (auth.length :: (auth ++ trailing)))))

/-- The malformed payloads on which a bounds check fails, for a payload slice of bytes
`data` and spare bytes `spare`: shorter than the 32-byte prefix; no 0 byte at or after
offset 32; a length byte of the auth response larger than the number of bytes after it up
to the capacity of the slice (the bytes left in the payload and the spare bytes); a
database name with no 0 byte after it, in a payload whose credentials are accepted and
whose flags contain `CLIENT_CONNECT_WITH_DB`. -/
def Malformed (M : Mysql) (salt data spare : List Nat) : Prop :=
  data.length < 32 ∨
  0 ∉ data.drop 32 ∨
  (∃ flags skip name rest n, data = flags ++ (skip ++ (name ++ 0 :: n :: rest)) ∧
    flags.length = 4 ∧ skip.length = 28 ∧ 0 ∉ name ∧ rest.length + spare.length < n) ∨
  (∃ flags skip trailing v, data = response flags skip User (M.CalcPassword salt Password) trailing ∧
    flags.length = 4 ∧ skip.length = 28 ∧ Uint32 flags = some v ∧
    v &&& M.CLIENT_CONNECT_WITH_DB > 0 ∧ trailing ≠ [] ∧ 0 ∉ trailing)

/-- Twenty-eight zero bytes. -/
def zeros28 : List Nat := List.replicate 28 0

/-! ## Little-endian bytes -/

theorem littleEndian_length (k n : Nat) : (littleEndian k n).length = k := by
  induction k generalizing n with
  | zero => rfl
  | succ k ih => simp [littleEndian, ih]

theorem littleEndian_isBytes (k n : Nat) : isBytes (littleEndian k n) := by
  induction k generalizing n with
  | zero => intro b hb; simp [littleEndian] at hb
  | succ k ih =>
    intro b hb
    simp only [littleEndian, List.mem_cons] at hb
    rcases hb with rfl | hb
    · exact Nat.mod_lt _ (by norm_num)
    · exact ih _ b hb

/-- The little-endian bytes of a number carry its value modulo `256 ^ k`. -/
theorem leValue_littleEndian (k n : Nat) : leValue (littleEndian k n) = n % 256 ^ k := by
  induction k generalizing n with
  | zero => simp [littleEndian, leValue, Nat.mod_one]
  | succ k ih =>
    simp only [littleEndian, leValue, ih, pow_succ]
    rw [Nat.mul_comm (256 ^ k) 256, Nat.mod_mul]

theorem littleEndian_two (n : Nat) : littleEndian 2 n = [n % 256, (n >>> 8) % 256] := by
  simp [littleEndian, Nat.shiftRight_eq_div_pow]

theorem littleEndian_four (n : Nat) :
    littleEndian 4 n = [n % 256, (n >>> 8) % 256, (n >>> 16) % 256, (n >>> 24) % 256] := by
  simp [littleEndian, Nat.shiftRight_eq_div_pow, Nat.div_div_eq_div_mul]

theorem littleEndian_two_high (n : Nat) :
    littleEndian 2 (n / 2 ^ 16) = [(n >>> 16) % 256, (n >>> 24) % 256] := by
  simp [littleEndian, Nat.shiftRight_eq_div_pow, Nat.div_div_eq_div_mul]

/-! ## Slices within bounds -/

theorem goSlice_of_le (s spare : List Nat) (lo hi : Nat) (h1 : lo ≤ hi) (h2 : hi ≤ s.length) :
    goSlice s spare (lo : Int) (hi : Int) = some ((s.drop lo).take (hi - lo)) := by
  unfold goSlice
  have h : (0 : Int) ≤ lo ∧ (lo : Int) ≤ hi ∧
      (hi : Int) ≤ ((s.length + spare.length : Nat) : Int) := by omega
  rw [if_pos h]
  have e : ((hi : Int) - (lo : Int)).toNat = hi - lo := by omega
  have hd : (s ++ spare).drop lo = s.drop lo ++ spare :=
    List.drop_append_of_le_length (by omega)
  have ht : (s.drop lo ++ spare).take (hi - lo) = (s.drop lo).take (hi - lo) :=
    List.take_append_of_le_length (by rw [List.length_drop]; omega)
  simp only [Int.toNat_ofNat, e, hd, ht]

theorem goSliceFrom_of_le (s spare : List Nat) (lo : Nat) (h : lo ≤ s.length) :
    goSliceFrom s spare (lo : Int) = some (s.drop lo) := by
  unfold goSliceFrom
  rw [goSlice_of_le s spare lo s.length h le_rfl]
  simp

theorem goSlice_mid (a b c spare : List Nat) (lo hi : Int) (hlo : lo = (a.length : Int))
    (hhi : hi = (a.length : Int) + (b.length : Int)) :
    goSlice (a ++ (b ++ c)) spare lo hi = some b := by
  subst hlo
  have hhi2 : hi = ((a.length + b.length : Nat) : Int) := by rw [hhi]; push_cast; rfl
  subst hhi2
  rw [goSlice_of_le (a ++ (b ++ c)) spare a.length (a.length + b.length) (by omega)
    (by simp only [List.length_append]; omega)]
  simp

theorem goSliceFrom_right (a b spare : List Nat) (lo : Int) (hlo : lo = (a.length : Int)) :
    goSliceFrom (a ++ b) spare lo = some b := by
  subst hlo
  rw [goSliceFrom_of_le (a ++ b) spare a.length (by simp)]
  simp

theorem goSliceFrom_beyond (s spare : List Nat) (lo : Int) (h : (s.length : Int) < lo) :
    goSliceFrom s spare lo = none := by
  unfold goSliceFrom goSlice
  rw [if_neg]
  omega

theorem goIndex_mid (a c : List Nat) (x : Nat) (i : Int) (hi : i = (a.length : Int)) :
    goIndex (a ++ x :: c) i = some x := by
  subst hi
  have h : (a ++ x :: c).get? a.length = some x := by
    induction a with
    | nil => rfl
    | cons y a ih => simpa using ih
  simpa [goIndex] using h

theorem IndexByte_first (a c : List Nat) (x : Nat) (h : x ∉ a) :
    IndexByte (a ++ x :: c) x = (a.length : Int) := by
  unfold IndexByte
  rw [if_pos (by simp)]
  congr 1
  induction a with
  | nil => simp
  | cons y a ih =>
    have hy : y ≠ x := fun e => h (by simp [e])
    have ha : x ∉ a := fun e => h (by simp [e])
    simp [List.indexOf_cons, hy, ih ha]

theorem IndexByte_absent (s : List Nat) (x : Nat) (h : x ∉ s) : IndexByte s x = -1 := by
  simp [IndexByte, h]

theorem parse_response (c : ClientConn) (flags skip name auth trailing spare : List Nat)
    (v : Nat) (hv : Uint32 flags = some v) (hf : flags.length = 4) (hs : skip.length = 28)
    (h0 : 0 ∉ name) :
    readHandshakeResponse.parse c (response flags skip name auth trailing) spare =
      ({ c with capability := v, user := name },
        some { auth := auth, authLen := (auth.length : Int),
               pos := (name.length : Int) + 34 }) := by
  have e1 : goSliceTo (response flags skip name auth trailing) spare 4 = some flags := by
    have := goSlice_mid [] flags (skip ++ (name ++ (0 :: (auth.length :: (auth ++ trailing)))))
      spare 0 4 (by simp) (by simp [hf])
    simpa [goSliceTo, response] using this
  have e2 : goSliceFrom (response flags skip name auth trailing) spare 32 =
      some (name ++ (0 :: (auth.length :: (auth ++ trailing)))) := by
    have := goSliceFrom_right (flags ++ skip) (name ++ (0 :: (auth.length :: (auth ++ trailing))))
      spare 32 (by simp [hf, hs])
    simpa [response] using this
  have e3 : goSlice (response flags skip name auth trailing) spare 32
      (32 + (name.length : Int)) = some name := by
    have := goSlice_mid (flags ++ skip) name (0 :: (auth.length :: (auth ++ trailing))) spare
      32 (32 + (name.length : Int)) (by simp [hf, hs]) (by simp [hf, hs])
    simpa [response] using this
  have e4 : goIndex (response flags skip name auth trailing) (32 + ((name.length : Int) + 1)) =
      some auth.length := by
    have := goIndex_mid (flags ++ (skip ++ (name ++ [0]))) (auth ++ trailing) auth.length
      (32 + ((name.length : Int) + 1)) (by simp [hf, hs]; omega)
    simpa [response] using this
  have e5 : goSlice (response flags skip name auth trailing) spare
      (32 + ((name.length : Int) + 1) + 1)
      (32 + ((name.length : Int) + 1) + 1 + (auth.length : Int)) = some auth := by
    have := goSlice_mid (flags ++ (skip ++ (name ++ [0, auth.length]))) auth trailing spare
      (32 + ((name.length : Int) + 1) + 1)
      (32 + ((name.length : Int) + 1) + 1 + (auth.length : Int))
      (by simp [hf, hs]; omega) (by simp [hf, hs]; omega)
    simpa [response] using this
  have e6 : IndexByte (name ++ (0 :: (auth.length :: (auth ++ trailing)))) 0 = (name.length : Int) :=
    IndexByte_first name _ 0 h0
  unfold readHandshakeResponse.parse
  simp only [e1, Option.some_bind, hv]
  norm_num
  simp only [e2, e6, e3, e4, e5]
  have e : (32 : Int) + ((name.length : Int) + 1) + 1 = (name.length : Int) + 34 := by omega
  rw [e]

theorem split_at_first (t : List Nat) (x : Nat) (h : x ∈ t) :
    ∃ post, t = t.takeWhile (fun b => b != x) ++ x :: post ∧
      x ∉ t.takeWhile (fun b => b != x) := by
  induction t with
  | nil => simp at h
  | cons y t ih =>
    by_cases hy : y = x
    · subst hy
      exact ⟨t, by simp, by simp⟩
    · have hx : x ∈ t := by
        rcases List.mem_cons.mp h with e | e
        · exact absurd e.symm hy
        · exact e
      obtain ⟨post, h1, h2⟩ := ih hx
      have hne : (y != x) = true := by simpa using hy
      refine ⟨post, ?_, ?_⟩
      · rw [List.takeWhile_cons, hne]
        simp only [if_true, List.cons_append]
        rw [← h1]
      · rw [List.takeWhile_cons, hne]
        simp only [if_true, List.mem_cons, not_or]
        exact ⟨fun e => hy e.symm, h2⟩

theorem check_response (M : Mysql) (c : ClientConn)
    (flags skip name auth trailing spare : List Nat)
    (hf : flags.length = 4) (hs : skip.length = 28) (hu : c.user = name) :
    readHandshakeResponse.check M c (response flags skip name auth trailing) spare
        { auth := auth, authLen := (auth.length : Int), pos := (name.length : Int) + 34 } =
      if name ≠ User ∨ auth ≠ M.CalcPassword c.salt Password then
        (c, .returned (some (.sql
          (M.NewDefaultError M.ER_ACCESS_DENIED_ERROR [name, c.c.RemoteAddr, Yes]))))
      else if c.capability &&& M.CLIENT_CONNECT_WITH_DB > 0 then
        if trailing = [] then (c, .returned none)
        else if 0 ∈ trailing then
          ({ c with db := trailing.takeWhile (fun b => b != 0) }, .returned none)
        else (c, .panicked)
      else ({ c with db := [] }, .returned none) := by
  unfold readHandshakeResponse.check
  simp only [hu, bytesEqual, decide_eq_false_iff_not]
  by_cases hcred : name ≠ User ∨ auth ≠ M.CalcPassword c.salt Password
  · rw [if_pos hcred, if_pos hcred]
  · rw [if_neg hcred, if_neg hcred]
    by_cases hdb : c.capability &&& M.CLIENT_CONNECT_WITH_DB > 0
    · rw [if_pos hdb, if_pos hdb]
      have e1 : goSliceFrom (response flags skip name auth trailing) spare
          ((name.length : Int) + 34 + (auth.length : Int)) = some trailing := by
        have := goSliceFrom_right (flags ++ (skip ++ (name ++ (0 :: (auth.length :: auth)))))
          trailing spare ((name.length : Int) + 34 + (auth.length : Int))
          (by simp [hf, hs]; omega)
        simpa [response] using this
      simp only [e1]
      by_cases ht : trailing = []
      · simp [ht]
      · have hl : ¬ trailing.length = 0 := by simpa using ht
        rw [if_neg hl, if_neg ht]
        by_cases hz : 0 ∈ trailing
        · rw [if_pos hz]
          obtain ⟨post, h1, h2⟩ := split_at_first trailing 0 hz
          have e2 : IndexByte trailing 0 =
              ((trailing.takeWhile (fun b => b != 0)).length : Int) := by
            conv_lhs => rw [h1]
            exact IndexByte_first _ _ 0 h2
          have e3 : goSlice (response flags skip name auth trailing) spare
              ((name.length : Int) + 34 + (auth.length : Int))
              ((name.length : Int) + 34 + (auth.length : Int) +
                ((trailing.takeWhile (fun b => b != 0)).length : Int)) =
              some (trailing.takeWhile (fun b => b != 0)) := by
            have := goSlice_mid (flags ++ (skip ++ (name ++ (0 :: (auth.length :: auth)))))
              (trailing.takeWhile (fun b => b != 0)) (0 :: post) spare
              ((name.length : Int) + 34 + (auth.length : Int))
              ((name.length : Int) + 34 + (auth.length : Int) +
                ((trailing.takeWhile (fun b => b != 0)).length : Int))
              (by simp [hf, hs]; omega) (by simp [hf, hs]; omega)
            rw [← h1] at this
            simpa [response] using this
          simp only [e2, e3]
        · rw [if_neg hz]
          have e2 : IndexByte trailing 0 = -1 := IndexByte_absent _ _ hz
          have e3 : goSlice (response flags skip name auth trailing) spare
              ((name.length : Int) + 34 + (auth.length : Int))
              ((name.length : Int) + 34 + (auth.length : Int) + -1) = none := by
            unfold goSlice
            rw [if_neg]
            omega
          simp only [e2, e3]
    · rw [if_neg hdb, if_neg hdb]

theorem Uint32_eq_leValue (b0 b1 b2 b3 : Nat) (h0 : b0 < 256) (h1 : b1 < 256) (h2 : b2 < 256)
    (h3 : b3 < 256) : Uint32 [b0, b1, b2, b3] = some (leValue [b0, b1, b2, b3]) := by
  have e1 : (b1 <<< 8) % 2 ^ 32 = 256 * b1 := by
    rw [Nat.shiftLeft_eq, Nat.mul_comm]; exact Nat.mod_eq_of_lt (by omega)
  have e2 : (b2 <<< 16) % 2 ^ 32 = 65536 * b2 := by
    rw [Nat.shiftLeft_eq, Nat.mul_comm]; exact Nat.mod_eq_of_lt (by omega)
  have e3 : (b3 <<< 24) % 2 ^ 32 = 16777216 * b3 := by
    rw [Nat.shiftLeft_eq, Nat.mul_comm]; exact Nat.mod_eq_of_lt (by omega)
  have o1 : b0 ||| 256 * b1 = 256 * b1 + b0 := by
    rw [Nat.or_comm]; exact (Nat.mul_add_lt_is_or (i := 8) (by omega) b1).symm
  have o2 : (256 * b1 + b0) ||| 65536 * b2 = 65536 * b2 + (256 * b1 + b0) := by
    rw [Nat.or_comm]; exact (Nat.mul_add_lt_is_or (i := 16) (by omega) b2).symm
  have o3 : (65536 * b2 + (256 * b1 + b0)) ||| 16777216 * b3 =
      16777216 * b3 + (65536 * b2 + (256 * b1 + b0)) := by
    rw [Nat.or_comm]; exact (Nat.mul_add_lt_is_or (i := 24) (by omega) b3).symm
  have hval : (b0 ||| (b1 <<< 8) % 2 ^ 32 ||| (b2 <<< 16) % 2 ^ 32 ||| (b3 <<< 24) % 2 ^ 32) %
      2 ^ 32 = b0 + 256 * (b1 + 256 * (b2 + 256 * (b3 + 256 * 0))) := by
    rw [e1, e2, e3, o1, o2, o3]
    omega
  show some ((b0 ||| (b1 <<< 8) % 2 ^ 32 ||| (b2 <<< 16) % 2 ^ 32 ||| (b3 <<< 24) % 2 ^ 32) %
    2 ^ 32) = some (b0 + 256 * (b1 + 256 * (b2 + 256 * (b3 + 256 * 0))))
  rw [hval]

theorem Uint32_of_length (flags : List Nat) (hf : flags.length = 4) (hb : isBytes flags) :
    Uint32 flags = some (leValue flags) := by
  match flags, hf with
  | [b0, b1, b2, b3], _ =>
    exact Uint32_eq_leValue b0 b1 b2 b3 (hb b0 (by simp)) (hb b1 (by simp)) (hb b2 (by simp))
      (hb b3 (by simp))

theorem Uint32_isSome (flags : List Nat) (hf : 4 ≤ flags.length) : ∃ v, Uint32 flags = some v := by
  match flags, hf with
  | _ :: _ :: _ :: _ :: _, _ => exact ⟨_, rfl⟩

/-- What the body of `readHandshakeResponse` does with a payload laid out as the
specification says, whatever the spare bytes of the slice. -/
theorem body_response (M : Mysql) (c : ClientConn)
    (flags skip name auth trailing spare : List Nat)
    (v : Nat) (hv : Uint32 flags = some v) (hf : flags.length = 4) (hs : skip.length = 28)
    (h0 : 0 ∉ name) :
    readHandshakeResponse.body M c (response flags skip name auth trailing) spare =
      if name ≠ User ∨ auth ≠ M.CalcPassword c.salt Password then
        ({ c with capability := v, user := name }, .returned (some (.sql
          (M.NewDefaultError M.ER_ACCESS_DENIED_ERROR [name, c.c.RemoteAddr, Yes]))))
      else if v &&& M.CLIENT_CONNECT_WITH_DB > 0 then
        if trailing = [] then ({ c with capability := v, user := name }, .returned none)
        else if 0 ∈ trailing then
          ({ c with capability := v, user := name,
                    db := trailing.takeWhile (fun b => b != 0) }, .returned none)
        else ({ c with capability := v, user := name }, .panicked)
      else ({ c with capability := v, user := name, db := [] }, .returned none) := by
  unfold readHandshakeResponse.body
  rw [parse_response c flags skip name auth trailing spare v hv hf hs h0]
  simp only []
  rw [check_response M _ flags skip name auth trailing spare hf hs rfl]

theorem readHandshakeResponse_of_read (M : Mysql) (c : ClientConn) (p : PacketIO)
    (data spare : List Nat) (hread : M.ReadPacket c.pkg = (p, data, spare, none)) :
    readHandshakeResponse M c =
      readHandshakeResponse.body M { c with pkg := p } data spare := by
  unfold readHandshakeResponse
  rw [hread]

/-! ## Payloads that fail a bounds check -/

theorem body_short (M : Mysql) (c : ClientConn) (data spare : List Nat)
    (h : data.length < 32) :
    (readHandshakeResponse.body M c data spare).2 = Completion.panicked := by
  have hfrom : goSliceFrom data spare 32 = none :=
    goSliceFrom_beyond data spare 32 (by omega)
  unfold readHandshakeResponse.body readHandshakeResponse.parse
  cases hflags : (goSliceTo data spare 4).bind Uint32 with
  | none => simp only []
  | some v =>
    simp only []
    norm_num
    simp only [hfrom]

theorem body_no_terminator (M : Mysql) (c : ClientConn) (data spare : List Nat)
    (h : 0 ∉ data.drop 32) :
    (readHandshakeResponse.body M c data spare).2 = Completion.panicked := by
  by_cases hlen : data.length < 32
  · exact body_short M c data spare hlen
  · have hfrom : goSliceFrom data spare 32 = some (data.drop 32) := by
      have := goSliceFrom_of_le data spare 32 (by omega)
      simpa using this
    have hidx : IndexByte (data.drop 32) 0 = -1 := IndexByte_absent _ _ h
    have hname : goSlice data spare 32 (32 + -1) = none := by
      unfold goSlice
      rw [if_neg]
      omega
    unfold readHandshakeResponse.body readHandshakeResponse.parse
    cases hflags : (goSliceTo data spare 4).bind Uint32 with
    | none => simp only []
    | some v =>
      simp only []
      norm_num
      simp only [hfrom, hidx, hname]

/-- The parse of a payload that ends after a length byte `n` and the bytes `rest`: it comes
to the slice expression `data[pos:pos+authLen]` with the session and the bounds given. -/
theorem parse_to_auth (c : ClientConn) (flags skip name rest spare : List Nat) (n v : Nat)
    (hv : Uint32 flags = some v) (hf : flags.length = 4) (hs : skip.length = 28)
    (h0 : 0 ∉ name) :
    readHandshakeResponse.parse c (flags ++ (skip ++ (name ++ 0 :: n :: rest))) spare =
      match goSlice (flags ++ (skip ++ (name ++ 0 :: n :: rest))) spare
          ((name.length : Int) + 34) ((name.length : Int) + 34 + (n : Int)) with
      | none => ({ c with capability := v, user := name }, none)
      | some auth =>
        ({ c with capability := v, user := name },
          some { auth := auth, authLen := (n : Int), pos := (name.length : Int) + 34 }) := by
  have e1 : goSliceTo (flags ++ (skip ++ (name ++ 0 :: n :: rest))) spare 4 = some flags := by
    have := goSlice_mid [] flags (skip ++ (name ++ 0 :: n :: rest)) spare 0 4 (by simp)
      (by simp [hf])
    simpa [goSliceTo] using this
  have e2 : goSliceFrom (flags ++ (skip ++ (name ++ 0 :: n :: rest))) spare 32 =
      some (name ++ 0 :: n :: rest) := by
    have := goSliceFrom_right (flags ++ skip) (name ++ 0 :: n :: rest) spare 32
      (by simp [hf, hs])
    simpa using this
  have e3 : goSlice (flags ++ (skip ++ (name ++ 0 :: n :: rest))) spare 32
      (32 + (name.length : Int)) = some name := by
    have := goSlice_mid (flags ++ skip) name (0 :: n :: rest) spare
      32 (32 + (name.length : Int)) (by simp [hf, hs]) (by simp [hf, hs])
    simpa using this
  have e4 : goIndex (flags ++ (skip ++ (name ++ 0 :: n :: rest)))
      (32 + ((name.length : Int) + 1)) = some n := by
    have := goIndex_mid (flags ++ (skip ++ (name ++ [0]))) rest n
      (32 + ((name.length : Int) + 1)) (by simp [hf, hs]; omega)
    simpa using this
  have e6 : IndexByte (name ++ 0 :: n :: rest) 0 = (name.length : Int) :=
    IndexByte_first name _ 0 h0
  have e : (32 : Int) + ((name.length : Int) + 1) + 1 = (name.length : Int) + 34 := by omega
  unfold readHandshakeResponse.parse
  simp only [e1, Option.some_bind, hv]
  norm_num
  simp only [e2, e6, e3, e4, e]

theorem body_short_auth (M : Mysql) (c : ClientConn) (flags skip name rest spare : List Nat)
    (n : Nat) (hf : flags.length = 4) (hs : skip.length = 28) (h0 : 0 ∉ name)
    (hn : rest.length + spare.length < n) :
    (readHandshakeResponse.body M c (flags ++ (skip ++ (name ++ 0 :: n :: rest))) spare).2 =
      Completion.panicked := by
  obtain ⟨v, hv⟩ := Uint32_isSome flags (by omega)
  have e5 : goSlice (flags ++ (skip ++ (name ++ 0 :: n :: rest))) spare
      ((name.length : Int) + 34) ((name.length : Int) + 34 + (n : Int)) = none := by
    unfold goSlice
    rw [if_neg]
    simp only [List.length_append, List.length_cons, hf, hs]
    push_cast
    omega
  unfold readHandshakeResponse.body
  rw [parse_to_auth c flags skip name rest spare n v hv hf hs h0, e5]

/-- A length byte of the auth response larger than the number of bytes left in the
payload, but not larger than what is left up to the capacity of the slice: no bounds check
fails, and the auth response is made of the bytes left in the payload and of spare bytes
of the backing array. -/
theorem parse_auth_from_spare (c : ClientConn) (flags skip name rest spare : List Nat)
    (n v : Nat) (hv : Uint32 flags = some v) (hf : flags.length = 4) (hs : skip.length = 28)
    (h0 : 0 ∉ name) (hn : n ≤ rest.length + spare.length) :
    readHandshakeResponse.parse c (flags ++ (skip ++ (name ++ 0 :: n :: rest))) spare =
      ({ c with capability := v, user := name },
        some { auth := (rest ++ spare).take n, authLen := (n : Int),
               pos := (name.length : Int) + 34 }) := by
  have e5 : goSlice (flags ++ (skip ++ (name ++ 0 :: n :: rest))) spare
      ((name.length : Int) + 34) ((name.length : Int) + 34 + (n : Int)) =
      some ((rest ++ spare).take n) := by
    unfold goSlice
    rw [if_pos]
    · have e1 : ((name.length : Int) + 34).toNat =
          (flags ++ (skip ++ (name ++ [0, n]))).length := by
        simp only [List.length_append, List.length_cons, List.length_nil, hf, hs]
        omega
      have e2 : ((name.length : Int) + 34 + (n : Int) - ((name.length : Int) + 34)).toNat = n := by
        omega
      have e3 : (flags ++ (skip ++ (name ++ 0 :: n :: rest))) ++ spare =
          (flags ++ (skip ++ (name ++ [0, n]))) ++ (rest ++ spare) := by simp
      rw [e1, e2, e3, List.drop_left]
    · simp only [List.length_append, List.length_cons, hf, hs]
      push_cast
      omega
  rw [parse_to_auth c flags skip name rest spare n v hv hf hs h0, e5]

/-! ## The handshake response -/

/-- C1, as the code has it: a username with no 0 byte after it is not answered by a
protocol error; the call panics.  The payload is 4 flag bytes, 28 zero bytes and "root". -/
theorem readHandshakeResponse_unterminated_user_panics :
    (readHandshakeResponse mysql (session [[13, 162, 0, 0] ++ zeros28 ++ User])).2 =
        Completion.panicked ∧
      ∀ e, (readHandshakeResponse mysql (session [[13, 162, 0, 0] ++ zeros28 ++ User])).2 ≠
        Completion.returned (some e) := by
  have h : (readHandshakeResponse mysql (session [[13, 162, 0, 0] ++ zeros28 ++ User])).2 =
      Completion.panicked := by decide
  refine ⟨h, ?_⟩
  intro e he
  rw [h] at he
  exact Completion.noConfusion he

/-- C1, amended: for every session and every payload read without error, as a slice with
any spare bytes, that is shorter than 32 bytes, or has no 0 byte at or after offset 32, or
whose auth-length byte is larger than the number of bytes after it up to the capacity of
the slice, or whose database name has no 0 byte after it while the credentials are
accepted and the flags contain `CLIENT_CONNECT_WITH_DB`, `readHandshakeResponse` returns
no error at all: the bounds check of a slice expression fails and the call panics. -/
theorem readHandshakeResponse_malformed_panics (M : Mysql) (c : ClientConn) (p : PacketIO)
    (data spare : List Nat) (hread : M.ReadPacket c.pkg = (p, data, spare, none))
    (hbad : Malformed M c.salt data spare) :
    (readHandshakeResponse M c).2 = Completion.panicked := by
  rw [readHandshakeResponse_of_read M c p data spare hread]
  rcases hbad with h | h | h | h
  · exact body_short M _ data spare h
  · exact body_no_terminator M _ data spare h
  · obtain ⟨flags, skip, name, rest, n, rfl, hf, hs, h0, hn⟩ := h
    exact body_short_auth M _ flags skip name rest spare n hf hs h0 hn
  · obtain ⟨flags, skip, trailing, v, rfl, hf, hs, hv, hdb, ht, hz⟩ := h
    have h0 : (0 : Nat) ∉ User := by decide
    rw [body_response M _ flags skip User _ trailing spare v hv hf hs h0]
    have hcred : ¬ (User ≠ User ∨ M.CalcPassword c.salt Password ≠
        M.CalcPassword c.salt Password) := by simp
    rw [if_neg hcred, if_pos hdb, if_neg ht, if_neg hz]

theorem readHandshakeResponse_malformed_panics_witness :
    (mysqlSpare [7, 7, 7]).ReadPacket
        (session [[13, 162, 0, 0] ++ (zeros28 ++ (User ++ [0, 20, 1, 2]))]).pkg =
        ({ Sequence := 1, wire := [] },
          [13, 162, 0, 0] ++ (zeros28 ++ (User ++ [0, 20, 1, 2])), [7, 7, 7], none) ∧
      (readHandshakeResponse (mysqlSpare [7, 7, 7])
        (session [[13, 162, 0, 0] ++ (zeros28 ++ (User ++ [0, 20, 1, 2]))])).2 =
        Completion.panicked :=
  ⟨rfl, readHandshakeResponse_malformed_panics (mysqlSpare [7, 7, 7])
      (session [[13, 162, 0, 0] ++ (zeros28 ++ (User ++ [0, 20, 1, 2]))]) _
      ([13, 162, 0, 0] ++ (zeros28 ++ (User ++ [0, 20, 1, 2]))) [7, 7, 7] rfl
      (Or.inr (Or.inr (Or.inl ⟨[13, 162, 0, 0], zeros28, User, [1, 2], 20, rfl, by decide,
        by decide, by decide, by decide⟩)))⟩

/-- A payload of 40 bytes that stops after the first 2 bytes of the auth response, in a
slice of capacity 58 whose spare bytes are the other 18 bytes of the scramble: the length
byte 20 is larger than the 2 bytes left in the payload, no bounds check fails, the auth
response is read across the end of the payload, and the login is accepted (the flags do
not contain `CLIENT_CONNECT_WITH_DB`). -/
theorem readHandshakeResponse_reads_spare_bytes :
    (readHandshakeResponse (mysqlSpare (scramble123.drop 2))
        (session [[5, 162, 0, 0] ++ (zeros28 ++ (User ++ 0 :: 20 :: scramble123.take 2))])).2 =
      Completion.returned none := by
  set_option maxRecDepth 100000 in decide

/-- C2: for every payload laid out as a handshake response (with a database name that is
absent or followed by a 0 byte when the flags ask for one) and every salt,
`readHandshakeResponse` returns no error if and only if the username is "root" and the
auth response is `CalcPassword(salt, "123")` for the salt of the session; otherwise it
returns the error `NewDefaultError(ER_ACCESS_DENIED_ERROR, username, remote address, "Yes")`. -/
theorem readHandshakeResponse_accepts_iff (M : Mysql) (c : ClientConn) (p : PacketIO)
    (flags skip name auth trailing spare : List Nat) (v : Nat)
    (hread : M.ReadPacket c.pkg = (p, response flags skip name auth trailing, spare, none))
    (hf : flags.length = 4) (hv : Uint32 flags = some v) (hs : skip.length = 28)
    (h0 : 0 ∉ name)
    (hdb : v &&& M.CLIENT_CONNECT_WITH_DB > 0 → trailing = [] ∨ 0 ∈ trailing) :
    ((readHandshakeResponse M c).2 = Completion.returned none ↔
        name = User ∧ auth = M.CalcPassword c.salt Password) ∧
      (readHandshakeResponse M c).2 =
        if name = User ∧ auth = M.CalcPassword c.salt Password then Completion.returned none
        else Completion.returned (some (.sql
          (M.NewDefaultError M.ER_ACCESS_DENIED_ERROR [name, c.c.RemoteAddr, Yes]))) := by
  have key : (readHandshakeResponse M c).2 =
      if name = User ∧ auth = M.CalcPassword c.salt Password then Completion.returned none
      else Completion.returned (some (.sql
        (M.NewDefaultError M.ER_ACCESS_DENIED_ERROR [name, c.c.RemoteAddr, Yes]))) := by
    rw [readHandshakeResponse_of_read M c p _ spare hread,
      body_response M _ flags skip name auth trailing spare v hv hf hs h0]
    by_cases hcred : name = User ∧ auth = M.CalcPassword c.salt Password
    · have hn : ¬ (name ≠ User ∨ auth ≠ M.CalcPassword c.salt Password) := by
        rw [not_or, not_not, not_not]; exact hcred
      rw [if_pos hcred, if_neg hn]
      by_cases hflag : v &&& M.CLIENT_CONNECT_WITH_DB > 0
      · rw [if_pos hflag]
        rcases hdb hflag with ht | hz
        · rw [if_pos ht]
        · by_cases ht : trailing = []
          · rw [if_pos ht]
          · rw [if_neg ht, if_pos hz]
      · rw [if_neg hflag]
    · have hn : name ≠ User ∨ auth ≠ M.CalcPassword c.salt Password := by
        by_contra hc
        rw [not_or, not_not, not_not] at hc
        exact hcred hc
      rw [if_neg hcred, if_pos hn]
  refine ⟨?_, key⟩
  rw [key]
  by_cases hcred : name = User ∧ auth = M.CalcPassword c.salt Password
  · rw [if_pos hcred]
    exact ⟨fun _ => hcred, fun _ => rfl⟩
  · rw [if_neg hcred]
    exact ⟨fun h => by simp at h, fun h => absurd h hcred⟩

set_option maxRecDepth 100000 in
theorem readHandshakeResponse_accepts_iff_witness :
    mysql.ReadPacket (session [response [13, 162, 0, 0] zeros28 User scramble123 []]).pkg =
        ({ Sequence := 1, wire := [] }, response [13, 162, 0, 0] zeros28 User scramble123 [], [],
          none) ∧
      (readHandshakeResponse mysql
        (session [response [13, 162, 0, 0] zeros28 User scramble123 []])).2 =
          Completion.returned none :=
  ⟨rfl, (readHandshakeResponse_accepts_iff mysql
      (session [response [13, 162, 0, 0] zeros28 User scramble123 []]) _
      [13, 162, 0, 0] zeros28 User scramble123 [] [] 41485 rfl (by decide) (by decide)
      (by decide) (by decide) (fun _ => Or.inl rfl)).1.mpr ⟨rfl, by decide⟩⟩

/-- The capability a successful parse leaves in the session is the value read from the
first 4 bytes, and the payload has at least the 32 bytes of the fixed prefix. -/
theorem parse_capability (c c2 : ClientConn) (data spare : List Nat) (l : AuthLocals)
    (h : readHandshakeResponse.parse c data spare = (c2, some l)) :
    (goSliceTo data spare 4).bind Uint32 = some c2.capability ∧ 32 ≤ data.length := by
  unfold readHandshakeResponse.parse at h
  cases hflags : (goSliceTo data spare 4).bind Uint32 with
  | none => rw [hflags] at h; simp at h
  | some v =>
    rw [hflags] at h
    simp only [] at h
    norm_num at h
    by_cases hlen : 32 ≤ data.length
    · refine ⟨?_, hlen⟩
      split at h
      · simp at h
      · split at h
        · simp at h
        · split at h
          · simp at h
          · split at h
            · simp at h
            · simp only [Prod.mk.injEq] at h
              rw [← h.1]
    · have hfrom : goSliceFrom data spare 32 = none :=
        goSliceFrom_beyond data spare 32 (by omega)
      rw [hfrom] at h
      simp at h

theorem check_capability (M : Mysql) (c : ClientConn) (data spare : List Nat)
    (l : AuthLocals) :
    (readHandshakeResponse.check M c data spare l).1.capability = c.capability := by
  unfold readHandshakeResponse.check
  simp only []
  repeat' (first | rfl | split)

theorem goSliceTo_take (data spare : List Nat) (h : 4 ≤ data.length) :
    goSliceTo data spare 4 = some (data.take 4) := by
  have := goSlice_of_le data spare 0 4 (by omega) h
  simpa [goSliceTo] using this

/-- C3, as the code has it: a client that declares the flags `0x0003a20d` (those of
`DEFAULT_CAPABILITY` and the two bits `0x10000` and `0x20000`) is accepted and the
capabilities of the session are `0x0003a20d`, not the intersection `0xa20d` with
`DEFAULT_CAPABILITY`. -/
theorem readHandshakeResponse_capability_not_intersection :
    (readHandshakeResponse mysql
        (session [response [13, 162, 3, 0] zeros28 User scramble123 []])).2 =
        Completion.returned none ∧
      (readHandshakeResponse mysql
        (session [response [13, 162, 3, 0] zeros28 User scramble123 []])).1.capability ≠
        DEFAULT_CAPABILITY mysql &&& leValue [13, 162, 3, 0] := by
  set_option maxRecDepth 100000 in decide

/-- C3, amended: after `readHandshakeResponse` succeeds, the capabilities of the session
are the 4-byte little-endian flags the client declared in the first 4 bytes of its
response, for every client flag value; `DEFAULT_CAPABILITY` takes no part. -/
theorem readHandshakeResponse_capability (M : Mysql) (c : ClientConn) (p : PacketIO)
    (data spare : List Nat) (hread : M.ReadPacket c.pkg = (p, data, spare, none))
    (hb : isBytes data)
    (hok : (readHandshakeResponse M c).2 = Completion.returned none) :
    4 ≤ data.length ∧ (readHandshakeResponse M c).1.capability = leValue (data.take 4) := by
  rw [readHandshakeResponse_of_read M c p data spare hread] at hok ⊢
  unfold readHandshakeResponse.body at hok ⊢
  cases hparse : readHandshakeResponse.parse { c with pkg := p } data spare with
  | mk c2 o =>
    cases o with
    | none => rw [hparse] at hok; simp at hok
    | some l =>
      simp only []
      rw [check_capability]
      obtain ⟨hcap, hlen32⟩ := parse_capability _ c2 data spare l hparse
      have hlen : 4 ≤ data.length := by omega
      rw [goSliceTo_take data spare hlen, Option.some_bind] at hcap
      have hfour : (data.take 4).length = 4 := by simp; omega
      have hbt : isBytes (data.take 4) := fun x hx => hb x (List.mem_of_mem_take hx)
      rw [Uint32_of_length _ hfour hbt] at hcap
      exact ⟨hlen, (Option.some.inj hcap).symm⟩

set_option maxRecDepth 100000 in
theorem readHandshakeResponse_capability_witness :
    isBytes (response [13, 162, 3, 0] zeros28 User scramble123 []) ∧
      (readHandshakeResponse mysql
        (session [response [13, 162, 3, 0] zeros28 User scramble123 []])).1.capability =
        leValue [13, 162, 3, 0] :=
  ⟨by decide, (readHandshakeResponse_capability mysql
      (session [response [13, 162, 3, 0] zeros28 User scramble123 []]) _
      (response [13, 162, 3, 0] zeros28 User scramble123 []) [] rfl (by decide) (by decide)).2⟩

/-- C4: for every payload laid out as a handshake response, `readHandshakeResponse` reads
the flags as the little-endian value of bytes 0..3, takes as username the bytes from
offset 32 up to the first 0 byte, and takes as auth response the `n` bytes after the
length byte `n` that follows the terminator of the username; the bytes 4..31 are ignored:
any other 28 bytes in their place give the same result. -/
theorem readHandshakeResponse_fields (M : Mysql) (c : ClientConn) (p : PacketIO)
    (flags skip name auth trailing spare : List Nat)
    (hread : M.ReadPacket c.pkg = (p, response flags skip name auth trailing, spare, none))
    (hf : flags.length = 4) (hb : isBytes flags) (hs : skip.length = 28) (h0 : 0 ∉ name) :
    readHandshakeResponse.parse { c with pkg := p } (response flags skip name auth trailing)
        spare =
        ({ c with pkg := p, capability := leValue flags, user := name },
          some { auth := auth, authLen := (auth.length : Int),
                 pos := (name.length : Int) + 34 }) ∧
      (readHandshakeResponse M c).1.capability = leValue flags ∧
      (readHandshakeResponse M c).1.user = name ∧
      ∀ skip2 : List Nat, skip2.length = 28 →
        readHandshakeResponse.body M { c with pkg := p }
            (response flags skip2 name auth trailing) spare =
          readHandshakeResponse M c := by
  have hv := Uint32_of_length flags hf hb
  have hbody := body_response M { c with pkg := p } flags skip name auth trailing spare
    (leValue flags) hv hf hs h0
  refine ⟨parse_response _ flags skip name auth trailing spare (leValue flags) hv hf hs h0, ?_, ?_, ?_⟩
  · rw [readHandshakeResponse_of_read M c p _ spare hread, hbody]
    repeat' (first | rfl | split)
  · rw [readHandshakeResponse_of_read M c p _ spare hread, hbody]
    repeat' (first | rfl | split)
  · intro skip2 hs2
    rw [readHandshakeResponse_of_read M c p _ spare hread, hbody,
      body_response M { c with pkg := p } flags skip2 name auth trailing spare (leValue flags) hv hf
        hs2 h0]

theorem readHandshakeResponse_fields_witness :
    mysql.ReadPacket (session [response [13, 162, 0, 0] zeros28 User [7, 8] [9]]).pkg =
        ({ Sequence := 1, wire := [] }, response [13, 162, 0, 0] zeros28 User [7, 8] [9], [],
          none) ∧
      (readHandshakeResponse mysql
        (session [response [13, 162, 0, 0] zeros28 User [7, 8] [9]])).1.user = User :=
  ⟨rfl, (readHandshakeResponse_fields mysql
      (session [response [13, 162, 0, 0] zeros28 User [7, 8] [9]]) _
      [13, 162, 0, 0] zeros28 User [7, 8] [9] [] rfl (by decide) (by decide) (by decide)
      (by decide)).2.2.1⟩

/-- C5: for every handshake response whose credentials are accepted, whose flags contain
`CLIENT_CONNECT_WITH_DB` and that has no byte after the auth response, read on a session
whose database is empty, as it is before the handshake (the only assignment to `c.db` is
line 143 of this method), `readHandshakeResponse` returns no error and the database of the
session is empty. -/
theorem readHandshakeResponse_no_database (M : Mysql) (c : ClientConn) (p : PacketIO)
    (flags skip name auth spare : List Nat) (v : Nat)
    (hread : M.ReadPacket c.pkg = (p, response flags skip name auth [], spare, none))
    (hf : flags.length = 4) (hv : Uint32 flags = some v) (hs : skip.length = 28)
    (h0 : 0 ∉ name) (hdb : c.db = [])
    (hcred : name = User ∧ auth = M.CalcPassword c.salt Password)
    (hflag : v &&& M.CLIENT_CONNECT_WITH_DB > 0) :
    (readHandshakeResponse M c).2 = Completion.returned none ∧
      (readHandshakeResponse M c).1.db = [] := by
  have hn : ¬ (name ≠ User ∨ auth ≠ M.CalcPassword c.salt Password) := by
    rw [not_or, not_not, not_not]; exact hcred
  rw [readHandshakeResponse_of_read M c p _ spare hread,
    body_response M _ flags skip name auth [] spare v hv hf hs h0, if_neg hn, if_pos hflag,
    if_pos rfl]
  exact ⟨rfl, hdb⟩

set_option maxRecDepth 100000 in
theorem readHandshakeResponse_no_database_witness :
    (session [response [13, 162, 0, 0] zeros28 User scramble123 []]).db = [] ∧
      (readHandshakeResponse mysql
        (session [response [13, 162, 0, 0] zeros28 User scramble123 []])).2 =
        Completion.returned none ∧
      (readHandshakeResponse mysql
        (session [response [13, 162, 0, 0] zeros28 User scramble123 []])).1.db = [] :=
  ⟨rfl, readHandshakeResponse_no_database mysql
      (session [response [13, 162, 0, 0] zeros28 User scramble123 []]) _
      [13, 162, 0, 0] zeros28 User scramble123 [] 41485 rfl (by decide) (by decide) (by decide)
      (by decide) rfl ⟨rfl, by decide⟩ (by decide)⟩

/-- C6: for every accepted handshake response, the database of the session afterwards is
the bytes that follow the auth response up to, and without, their first 0 byte when
`CLIENT_CONNECT_WITH_DB` is among the flags and at least one byte follows the auth
response, and it is empty when the flag is not set, whatever follows the auth response. -/
theorem readHandshakeResponse_db (M : Mysql) (c : ClientConn) (p : PacketIO)
    (flags skip name auth trailing spare : List Nat) (v : Nat)
    (hread : M.ReadPacket c.pkg = (p, response flags skip name auth trailing, spare, none))
    (hf : flags.length = 4) (hv : Uint32 flags = some v) (hs : skip.length = 28)
    (h0 : 0 ∉ name)
    (hok : (readHandshakeResponse M c).2 = Completion.returned none)
    (hcase : v &&& M.CLIENT_CONNECT_WITH_DB > 0 → trailing ≠ []) :
    if v &&& M.CLIENT_CONNECT_WITH_DB > 0 then
      (readHandshakeResponse M c).1.db = trailing.takeWhile (fun b => b != 0) ∧
        (readHandshakeResponse M c).1.db ++ [0] <+: trailing ∧
        0 ∉ (readHandshakeResponse M c).1.db
    else (readHandshakeResponse M c).1.db = [] := by
  rw [readHandshakeResponse_of_read M c p _ spare hread,
    body_response M _ flags skip name auth trailing spare v hv hf hs h0] at hok ⊢
  by_cases hcred : name ≠ User ∨ auth ≠ M.CalcPassword c.salt Password
  · rw [if_pos hcred] at hok
    simp at hok
  · rw [if_neg hcred] at hok ⊢
    by_cases hflag : v &&& M.CLIENT_CONNECT_WITH_DB > 0
    · have ht := hcase hflag
      rw [if_pos hflag, if_neg ht] at hok ⊢
      rw [if_pos hflag]
      by_cases hz : 0 ∈ trailing
      · rw [if_pos hz]
        obtain ⟨post, h1, h2⟩ := split_at_first trailing 0 hz
        refine ⟨rfl, ?_, h2⟩
        exact ⟨post, by simpa using h1.symm⟩
      · rw [if_neg hz] at hok
        simp at hok
    · rw [if_neg hflag, if_neg hflag]

set_option maxRecDepth 100000 in
theorem readHandshakeResponse_db_witness :
    mysql.ReadPacket (session [response [13, 162, 0, 0] zeros28 User scramble123 [0x74, 0]]).pkg =
        ({ Sequence := 1, wire := [] },
          response [13, 162, 0, 0] zeros28 User scramble123 [0x74, 0], [], none) ∧
      (readHandshakeResponse mysql
        (session [response [13, 162, 0, 0] zeros28 User scramble123 [0x74, 0]])).2 =
        Completion.returned none ∧
      (readHandshakeResponse mysql
        (session [response [13, 162, 0, 0] zeros28 User scramble123 [0x74, 0]])).1.db = [0x74] :=
  ⟨rfl, by decide, (readHandshakeResponse_db mysql
      (session [response [13, 162, 0, 0] zeros28 User scramble123 [0x74, 0]]) _
      [13, 162, 0, 0] zeros28 User scramble123 [0x74, 0] [] 41485 rfl (by decide) (by decide)
      (by decide) (by decide) (by decide) (by decide)).1⟩

/-! ## The packets of the server -/

/-- C7: for every connection id, status and salt of at least 8 bytes, the slice
`writeInitialHandshake` hands to `WritePacket` is 4 reserved bytes followed by the
greeting of the specification (protocol version, server version, 0, connection id as 4
little-endian bytes, salt[0..8), 0, low 2 bytes of `DEFAULT_CAPABILITY`, collation byte,
status as 2 little-endian bytes, high 2 bytes of `DEFAULT_CAPABILITY`, `0x15`, ten 0
bytes, salt[8..), 0); its length is 30 + len(server version) + len(salt); exactly this
one slice is added to the packets written and the result of `WritePacket` is returned. -/
theorem writeInitialHandshake_packet (M : Mysql) (c : ClientConn)
    (hsalt : 8 ≤ c.salt.length) :
    (writeInitialHandshake M c).1.written =
        c.written ++ [List.replicate 4 0 ++ greetingLayout M c.connectionId c.status c.salt] ∧
      (List.replicate 4 0 ++ greetingLayout M c.connectionId c.status c.salt).length =
        30 + M.ServerVersion.length + c.salt.length ∧
      (writeInitialHandshake M c).2 = Completion.returned (M.WritePacket c.pkg
        (List.replicate 4 0 ++ greetingLayout M c.connectionId c.status c.salt)).2 ∧
      (writeInitialHandshake M c).1.pkg = (M.WritePacket c.pkg
        (List.replicate 4 0 ++ greetingLayout M c.connectionId c.status c.salt)).1 := by
  have h1 : goSlice c.salt c.saltSpare 0 8 = some (c.salt.take 8) := by
    have := goSlice_of_le c.salt c.saltSpare 0 8 (by omega) hsalt
    simpa using this
  have h2 : goSliceFrom c.salt c.saltSpare 8 = some (c.salt.drop 8) := by
    have := goSliceFrom_of_le c.salt c.saltSpare 8 hsalt
    simpa using this
  have hdata : writeInitialHandshake M c =
      ((WritePacket M c (List.replicate 4 0 ++
          greetingLayout M c.connectionId c.status c.salt)).1,
        Completion.returned (WritePacket M c (List.replicate 4 0 ++
          greetingLayout M c.connectionId c.status c.salt)).2) := by
    unfold writeInitialHandshake
    simp only [h1, h2, greetingLayout, littleEndian_two_high]
    simp only [littleEndian_two, littleEndian_four, List.append_assoc, List.replicate,
      List.cons_append, List.nil_append]
  refine ⟨?_, ?_, ?_, ?_⟩
  · rw [hdata]; rfl
  · simp [greetingLayout, littleEndian_length]
    omega
  · rw [hdata]; rfl
  · rw [hdata]; rfl

theorem writeInitialHandshake_packet_witness :
    8 ≤ (session []).salt.length ∧
      (writeInitialHandshake mysql (session [])).1.written =
        (session []).written ++ [List.replicate 4 0 ++
          greetingLayout mysql (session []).connectionId (session []).status (session []).salt] :=
  ⟨by decide, (writeInitialHandshake_packet mysql (session []) (by decide)).1⟩

/-- C8: for every session and every result, the slice `writeOK` hands to `WritePacket` is
4 reserved bytes, the byte `0x00`, the length-encoded affected-row count, the
length-encoded insert id and, exactly when the capabilities contain `CLIENT_PROTOCOL_41`,
the status as 2 little-endian bytes and 2 zero bytes; without `CLIENT_PROTOCOL_41` nothing
follows the insert id.  Exactly this one slice is added to the packets written. -/
theorem writeOK_packet (M : Mysql) (c : ClientConn) (r : Result) :
    writeOK M c (some r) =
        WritePacket M c (List.replicate 4 0 ++ [0x00] ++ M.PutLengthEncodedInt r.AffectedRows ++
          M.PutLengthEncodedInt r.InsertId ++
          (if c.capability &&& M.CLIENT_PROTOCOL_41 > 0 then littleEndian 2 r.Status ++ [0, 0]
            else [])) ∧
      (writeOK M c (some r)).1.written =
        c.written ++ [List.replicate 4 0 ++ [0x00] ++ M.PutLengthEncodedInt r.AffectedRows ++
          M.PutLengthEncodedInt r.InsertId ++
          (if c.capability &&& M.CLIENT_PROTOCOL_41 > 0 then littleEndian 2 r.Status ++ [0, 0]
            else [])] := by
  have hdata : writeOK M c (some r) =
      WritePacket M c (List.replicate 4 0 ++ [0x00] ++ M.PutLengthEncodedInt r.AffectedRows ++
        M.PutLengthEncodedInt r.InsertId ++
        (if c.capability &&& M.CLIENT_PROTOCOL_41 > 0 then littleEndian 2 r.Status ++ [0, 0]
          else [])) := by
    unfold writeOK
    by_cases h : c.capability &&& M.CLIENT_PROTOCOL_41 > 0
    · simp only [h, if_true, littleEndian_two, OK_HEADER, List.append_assoc]
    · simp only [h, if_false, OK_HEADER, List.append_assoc, List.append_nil]
  exact ⟨hdata, by rw [hdata]; rfl⟩

/-- C9: for every session and every structured error with a 5-byte SQL state, the slice
`writeError` hands to `WritePacket` is 4 reserved bytes, the byte `0xff`, the code as 2
little-endian bytes, exactly when the capabilities contain `CLIENT_PROTOCOL_41` the byte
`#` and the 5 bytes of the SQL state, and last the bytes of the message with nothing after
them: the slice is 7, or with `CLIENT_PROTOCOL_41` 13, bytes longer than the message. -/
theorem writeError_packet (M : Mysql) (c : ClientConn) (m : SqlError)
    (hstate : m.State.length = 5) :
    writeError M c (.sql m) =
        WritePacket M c (List.replicate 4 0 ++ [0xff] ++ littleEndian 2 m.Code ++
          (if c.capability &&& M.CLIENT_PROTOCOL_41 > 0 then [0x23] ++ m.State else []) ++
          m.Message) ∧
      (writeError M c (.sql m)).1.written =
        c.written ++ [List.replicate 4 0 ++ [0xff] ++ littleEndian 2 m.Code ++
          (if c.capability &&& M.CLIENT_PROTOCOL_41 > 0 then [0x23] ++ m.State else []) ++
          m.Message] ∧
      (List.replicate 4 0 ++ [0xff] ++ littleEndian 2 m.Code ++
          (if c.capability &&& M.CLIENT_PROTOCOL_41 > 0 then [0x23] ++ m.State else []) ++
          m.Message).length =
        (if c.capability &&& M.CLIENT_PROTOCOL_41 > 0 then 13 else 7) + m.Message.length := by
  have hdata : writeError M c (.sql m) =
      WritePacket M c (List.replicate 4 0 ++ [0xff] ++ littleEndian 2 m.Code ++
        (if c.capability &&& M.CLIENT_PROTOCOL_41 > 0 then [0x23] ++ m.State else []) ++
        m.Message) := by
    unfold writeError
    by_cases h : c.capability &&& M.CLIENT_PROTOCOL_41 > 0
    · simp only [h, if_true, littleEndian_two, ERR_HEADER, List.append_assoc]
    · simp only [h, if_false, littleEndian_two, ERR_HEADER, List.append_assoc,
        List.nil_append]
  refine ⟨hdata, by rw [hdata]; rfl, ?_⟩
  by_cases h : c.capability &&& M.CLIENT_PROTOCOL_41 > 0
  · simp [h, littleEndian_length, hstate]
    omega
  · simp [h, littleEndian_length]
    omega

theorem writeError_packet_witness :
    (mysql.NewError 1105 [0x62, 0x61, 0x64]).State.length = 5 ∧
      (writeError mysql (session []) (.sql (mysql.NewError 1105 [0x62, 0x61, 0x64]))).1.written =
        [[0, 0, 0, 0, 0xff, 0x51, 0x04, 0x62, 0x61, 0x64]] :=
  ⟨by decide, (writeError_packet mysql (session []) _ (by decide)).2.1⟩

/-- C10: for every session and every 16-bit status, the slice `writeEOF` hands to
`WritePacket` is 4 reserved bytes followed by the single byte `0xfe` when the capabilities
lack `CLIENT_PROTOCOL_41`, and by `0xfe`, two zero bytes and the status as 2 little-endian
bytes, which carry the status itself, when they contain it.  Exactly this one slice is
added to the packets written. -/
theorem writeEOF_packet (M : Mysql) (c : ClientConn) (status : Nat) (hstatus : status < 2 ^ 16) :
    writeEOF M c status =
        WritePacket M c (List.replicate 4 0 ++
          (if c.capability &&& M.CLIENT_PROTOCOL_41 > 0 then
            [0xfe] ++ [0, 0] ++ littleEndian 2 status
          else [0xfe])) ∧
      (writeEOF M c status).1.written =
        c.written ++ [List.replicate 4 0 ++
          (if c.capability &&& M.CLIENT_PROTOCOL_41 > 0 then
            [0xfe] ++ [0, 0] ++ littleEndian 2 status
          else [0xfe])] ∧
      leValue (littleEndian 2 status) = status := by
  have hdata : writeEOF M c status =
      WritePacket M c (List.replicate 4 0 ++
        (if c.capability &&& M.CLIENT_PROTOCOL_41 > 0 then
          [0xfe] ++ [0, 0] ++ littleEndian 2 status
        else [0xfe])) := by
    unfold writeEOF
    by_cases h : c.capability &&& M.CLIENT_PROTOCOL_41 > 0
    · simp only [h, if_true, littleEndian_two, EOF_HEADER, List.append_assoc]
    · simp only [h, if_false, EOF_HEADER]
  refine ⟨hdata, by rw [hdata]; rfl, ?_⟩
  rw [leValue_littleEndian]
  exact Nat.mod_eq_of_lt hstatus

theorem writeEOF_packet_witness :
    (2 : Nat) < 2 ^ 16 ∧
      (writeEOF mysql { session [] with capability := 512 } 2).1.written =
        [[0, 0, 0, 0, 0xfe, 0, 0, 2, 0]] :=
  ⟨by decide, (writeEOF_packet mysql { session [] with capability := 512 } 2 (by decide)).2.1⟩

/-! ## Shared facts about the writers -/

theorem WritePacket_written (M : Mysql) (c : ClientConn) (data : List Nat) :
    (WritePacket M c data).1.written = c.written ++ [data] := rfl

theorem writeOK_data (M : Mysql) (c : ClientConn) (r : Result) :
    writeOK M c (some r) =
      WritePacket M c (List.replicate 4 0 ++ [0x00] ++ M.PutLengthEncodedInt r.AffectedRows ++
        M.PutLengthEncodedInt r.InsertId ++
        (if c.capability &&& M.CLIENT_PROTOCOL_41 > 0 then littleEndian 2 r.Status ++ [0, 0]
          else [])) := by
  unfold writeOK
  by_cases h : c.capability &&& M.CLIENT_PROTOCOL_41 > 0
  · simp only [h, if_true, littleEndian_two, OK_HEADER, List.append_assoc]
  · simp only [h, if_false, OK_HEADER, List.append_assoc, List.append_nil]

theorem writeOK_nil_eq (M : Mysql) (c : ClientConn) :
    writeOK M c none =
      writeOK M c (some { Status := c.status, InsertId := 0, AffectedRows := 0 }) := rfl

theorem writeError_data (M : Mysql) (c : ClientConn) (m : SqlError) :
    writeError M c (.sql m) =
      WritePacket M c (List.replicate 4 0 ++ [0xff] ++ littleEndian 2 m.Code ++
        (if c.capability &&& M.CLIENT_PROTOCOL_41 > 0 then [0x23] ++ m.State else []) ++
        m.Message) := by
  unfold writeError
  by_cases h : c.capability &&& M.CLIENT_PROTOCOL_41 > 0
  · simp only [h, if_true, littleEndian_two, ERR_HEADER, List.append_assoc]
  · simp only [h, if_false, littleEndian_two, ERR_HEADER, List.append_assoc,
      List.nil_append]

theorem writeEOF_data (M : Mysql) (c : ClientConn) (status : Nat) :
    writeEOF M c status =
      WritePacket M c (List.replicate 4 0 ++
        (if c.capability &&& M.CLIENT_PROTOCOL_41 > 0 then
          [0xfe] ++ [0, 0] ++ littleEndian 2 status
        else [0xfe])) := by
  unfold writeEOF
  by_cases h : c.capability &&& M.CLIENT_PROTOCOL_41 > 0
  · simp only [h, if_true, littleEndian_two, EOF_HEADER, List.append_assoc]
  · simp only [h, if_false, EOF_HEADER]

theorem mysql_NewErrorSpec : NewErrorSpec mysql := by
  intro code text
  refine ⟨rfl, ?_, rfl⟩
  show (mysqlState code).length = 5
  unfold mysqlState
  split <;> rfl

/-! ## The response encoders, continued -/

/-- C13: for every error value that is not a structured error, `writeError` encodes it as
it encodes `NewError(ER_UNKNOWN_ERROR, e.Error())`; with `NewError` as the specification
describes it, the code field is `ER_UNKNOWN_ERROR` and the message bytes are the text of
the error unchanged.  A structured error is encoded with its own code, state and
message. -/
theorem writeError_unstructured (M : Mysql) (c : ClientConn) (text : List Nat) (m : SqlError)
    (hspec : NewErrorSpec M) :
    writeError M c (.other text) =
        writeError M c (.sql (M.NewError M.ER_UNKNOWN_ERROR text)) ∧
      (writeError M c (.other text)).1.written =
        c.written ++ [List.replicate 4 0 ++ [0xff] ++ littleEndian 2 M.ER_UNKNOWN_ERROR ++
          (if c.capability &&& M.CLIENT_PROTOCOL_41 > 0 then
            [0x23] ++ (M.NewError M.ER_UNKNOWN_ERROR text).State else []) ++ text] ∧
      (writeError M c (.sql m)).1.written =
        c.written ++ [List.replicate 4 0 ++ [0xff] ++ littleEndian 2 m.Code ++
          (if c.capability &&& M.CLIENT_PROTOCOL_41 > 0 then [0x23] ++ m.State else []) ++
          m.Message] := by
  have h1 : writeError M c (.other text) =
      writeError M c (.sql (M.NewError M.ER_UNKNOWN_ERROR text)) := rfl
  refine ⟨h1, ?_, ?_⟩
  · rw [h1, writeError_data, WritePacket_written, (hspec _ _).1, (hspec _ _).2.2]
  · rw [writeError_data, WritePacket_written]

theorem writeError_unstructured_witness :
    NewErrorSpec mysql ∧
      (writeError mysql { session [] with capability := 512 } (.other [0x62, 0x61, 0x64])).1.written =
        [[0, 0, 0, 0, 0xff, 0x51, 0x04, 0x23, 0x48, 0x59, 0x30, 0x30, 0x30, 0x62, 0x61, 0x64]] :=
  ⟨mysql_NewErrorSpec,
    (writeError_unstructured mysql { session [] with capability := 512 } [0x62, 0x61, 0x64]
      (mysql.NewError 0 []) mysql_NewErrorSpec).2.1⟩

/-- C14: for every session, `writeOK(nil)` writes exactly the packet that `writeOK` writes
for the result whose status is the current status of the session and whose affected-row
count and insert id are 0. -/
theorem writeOK_nil (M : Mysql) (c : ClientConn) :
    writeOK M c none =
        writeOK M c (some { Status := c.status, InsertId := 0, AffectedRows := 0 }) ∧
      (writeOK M c none).1.written =
        c.written ++ [List.replicate 4 0 ++ [0x00] ++ M.PutLengthEncodedInt 0 ++
          M.PutLengthEncodedInt 0 ++
          (if c.capability &&& M.CLIENT_PROTOCOL_41 > 0 then littleEndian 2 c.status ++ [0, 0]
            else [])] := by
  refine ⟨rfl, ?_⟩
  rw [writeOK_nil_eq, writeOK_data, WritePacket_written]

/-- C16: for every session, status, buffer and flag, `writeEOFBatch` builds the slice that
`writeEOF` builds for that session and status, hands it to `WritePacketBatch` with the
buffer and the flag of the caller, and returns the buffer and the error of
`WritePacketBatch`; it hands nothing to `WritePacket`. -/
theorem writeEOFBatch_payload (M : Mysql) (c : ClientConn) (total : List Nat) (status : Nat)
    (direct : Bool) :
    (writeEOF M c status).1.written =
        c.written ++ [List.replicate 4 0 ++
          (if c.capability &&& M.CLIENT_PROTOCOL_41 > 0 then
            [0xfe] ++ [0, 0] ++ littleEndian 2 status
          else [0xfe])] ∧
      writeEOFBatch M c total status direct =
        ({ c with pkg := (M.WritePacketBatch c.pkg total (List.replicate 4 0 ++
            (if c.capability &&& M.CLIENT_PROTOCOL_41 > 0 then
              [0xfe] ++ [0, 0] ++ littleEndian 2 status
            else [0xfe])) direct).1 },
          (M.WritePacketBatch c.pkg total (List.replicate 4 0 ++
            (if c.capability &&& M.CLIENT_PROTOCOL_41 > 0 then
              [0xfe] ++ [0, 0] ++ littleEndian 2 status
            else [0xfe])) direct).2) ∧
      (writeEOFBatch M c total status direct).1.written = c.written := by
  refine ⟨by rw [writeEOF_data, WritePacket_written], ?_, rfl⟩
  unfold writeEOFBatch
  by_cases h : c.capability &&& M.CLIENT_PROTOCOL_41 > 0
  · simp only [h, if_true, littleEndian_two, EOF_HEADER, List.append_assoc]
  · simp only [h, if_false, EOF_HEADER]

/-- C17: for every session, `Close` returns no error and leaves `closed = true`; on a
session that is closed already it changes nothing and does not close the transport again;
`Close` after `Close` gives what one `Close` gives, the transport being closed once for a
session that was open and not at all for one that was closed. -/
theorem Close_idempotent (c : ClientConn) :
    (Close c).2 = none ∧ (Close c).1.closed = true ∧
      (Close c).1 =
        (if c.closed then c
          else { c with c := { c.c with closeCalls := c.c.closeCalls + 1 }, closed := true }) ∧
      Close (Close c).1 = Close c ∧
      (Close (Close c).1).1.c.closeCalls = c.c.closeCalls + (if c.closed then 0 else 1) := by
  unfold Close
  by_cases h : c.closed = true
  · simp [h]
  · simp [h]

/-! ## The handshake -/

theorem parse_keeps (c : ClientConn) (data spare : List Nat) :
    (readHandshakeResponse.parse c data spare).1.written = c.written ∧
      (readHandshakeResponse.parse c data spare).1.status = c.status := by
  unfold readHandshakeResponse.parse
  simp only []
  refine ⟨?_, ?_⟩ <;> repeat' (first | rfl | split)

theorem check_keeps (M : Mysql) (c : ClientConn) (data spare : List Nat) (l : AuthLocals) :
    (readHandshakeResponse.check M c data spare l).1.written = c.written ∧
      (readHandshakeResponse.check M c data spare l).1.status = c.status := by
  unfold readHandshakeResponse.check
  simp only []
  refine ⟨?_, ?_⟩ <;> repeat' (first | rfl | split)

theorem readHandshakeResponse_keeps (M : Mysql) (c : ClientConn) :
    (readHandshakeResponse M c).1.written = c.written ∧
      (readHandshakeResponse M c).1.status = c.status := by
  unfold readHandshakeResponse
  split
  · exact ⟨rfl, rfl⟩
  · rename_i p data spare _
    unfold readHandshakeResponse.body
    have hp := parse_keeps { c with pkg := p } data spare
    cases hparse : readHandshakeResponse.parse { c with pkg := p } data spare with
    | mk c2 o =>
      rw [hparse] at hp
      cases o with
      | none => exact hp
      | some l =>
        have hc := check_keeps M c2 data spare l
        exact ⟨hc.1.trans hp.1, hc.2.trans hp.2⟩

theorem writeInitialHandshake_data (M : Mysql) (c : ClientConn) (hsalt : 8 ≤ c.salt.length) :
    writeInitialHandshake M c =
      ((WritePacket M c (List.replicate 4 0 ++
          greetingLayout M c.connectionId c.status c.salt)).1,
        Completion.returned (WritePacket M c (List.replicate 4 0 ++
          greetingLayout M c.connectionId c.status c.salt)).2) := by
  have h1 : goSlice c.salt c.saltSpare 0 8 = some (c.salt.take 8) := by
    have := goSlice_of_le c.salt c.saltSpare 0 8 (by omega) hsalt
    simpa using this
  have h2 : goSliceFrom c.salt c.saltSpare 8 = some (c.salt.drop 8) := by
    have := goSliceFrom_of_le c.salt c.saltSpare 8 hsalt
    simpa using this
  unfold writeInitialHandshake
  simp only [h1, h2, greetingLayout, littleEndian_two_high]
  simp only [littleEndian_two, littleEndian_four, List.append_assoc, List.replicate,
    List.cons_append, List.nil_append]

theorem writeInitialHandshake_short_salt (M : Mysql) (c : ClientConn)
    (hsalt : ¬ 8 ≤ c.salt.length) :
    (writeInitialHandshake M c).2 = Completion.panicked := by
  have h2 : goSliceFrom c.salt c.saltSpare 8 = none :=
    goSliceFrom_beyond c.salt c.saltSpare 8 (by omega)
  unfold writeInitialHandshake
  cases goSlice c.salt c.saltSpare 0 8 with
  | none => rfl
  | some part1 => simp only [h2]

theorem writeInitialHandshake_returned (M : Mysql) (c : ClientConn) (err : Option GoError)
    (h : (writeInitialHandshake M c).2 = Completion.returned err) :
    8 ≤ c.salt.length := by
  by_contra hs
  rw [writeInitialHandshake_short_salt M c hs] at h
  exact Completion.noConfusion h

/-- C11: for every run of `Handshake` in which the write of the greeting, the credential
check and the write of the OK packet succeed, `Handshake` returns no error, the packets
written are the greeting followed by one OK packet built from the current status of the
session with affected rows 0 and insert id 0, and the sequence counter is 0 at the
return. -/
theorem Handshake_success (M : Mysql) (c : ClientConn)
    (h1 : (writeInitialHandshake M c).2 = Completion.returned none)
    (h2 : (readHandshakeResponse M (writeInitialHandshake M c).1).2 = Completion.returned none)
    (h3 : (writeOK M (readHandshakeResponse M (writeInitialHandshake M c).1).1 none).2 = none) :
    (Handshake M c).2 = Completion.returned none ∧
      (Handshake M c).1.written =
        c.written ++ [List.replicate 4 0 ++ greetingLayout M c.connectionId c.status c.salt,
          List.replicate 4 0 ++ [0x00] ++ M.PutLengthEncodedInt 0 ++ M.PutLengthEncodedInt 0 ++
            (if (Handshake M c).1.capability &&& M.CLIENT_PROTOCOL_41 > 0 then
              littleEndian 2 c.status ++ [0, 0] else [])] ∧
      (Handshake M c).1.pkg.Sequence = 0 ∧ (Handshake M c).1.status = c.status := by
  have hsalt := writeInitialHandshake_returned M c none h1
  have hw := writeInitialHandshake_data M c hsalt
  rcases hr1 : writeInitialHandshake M c with ⟨c1, k1⟩
  rw [hr1] at h1 h2 h3 hw
  simp only at h1 h2 h3
  subst h1
  have hc1 : c1 = (WritePacket M c (List.replicate 4 0 ++
      greetingLayout M c.connectionId c.status c.salt)).1 := (Prod.mk.inj hw).1
  have hk := readHandshakeResponse_keeps M c1
  rcases hr2 : readHandshakeResponse M c1 with ⟨c2, k2⟩
  rw [hr2] at h2 h3 hk
  simp only at h2 h3 hk
  subst h2
  have hok := writeOK_nil M c2
  rcases hr3 : writeOK M c2 none with ⟨c3, k3⟩
  rw [hr3] at h3
  simp only at h3
  subst h3
  have hcap : c3.capability = c2.capability := by
    have : c3 = (writeOK M c2 none).1 := by rw [hr3]
    rw [this]; rfl
  have hst : c3.status = c2.status := by
    have : c3 = (writeOK M c2 none).1 := by rw [hr3]
    rw [this]; rfl
  have hwr : c3.written = c2.written ++ [List.replicate 4 0 ++ [0x00] ++
      M.PutLengthEncodedInt 0 ++ M.PutLengthEncodedInt 0 ++
      (if c2.capability &&& M.CLIENT_PROTOCOL_41 > 0 then littleEndian 2 c2.status ++ [0, 0]
        else [])] := by
    have h := hok.2
    rw [hr3] at h
    exact h
  have hfinal : Handshake M c =
      ({ c3 with pkg := { c3.pkg with Sequence := 0 } }, Completion.returned none) := by
    unfold Handshake
    rw [hr1]
    simp only []
    rw [hr2]
    simp only []
    rw [hr3]
  have hst1 : c1.status = c.status := by rw [hc1]; rfl
  have hwr1 : c1.written = c.written ++ [List.replicate 4 0 ++
      greetingLayout M c.connectionId c.status c.salt] := by rw [hc1]; rfl
  rw [hfinal]
  refine ⟨rfl, ?_, rfl, ?_⟩
  · show c3.written = _
    rw [hwr, hk.1, hwr1, hk.2, hst1]
    show _ = c.written ++ [_, List.replicate 4 0 ++ [0x00] ++ M.PutLengthEncodedInt 0 ++
      M.PutLengthEncodedInt 0 ++
      (if c3.capability &&& M.CLIENT_PROTOCOL_41 > 0 then littleEndian 2 c.status ++ [0, 0]
        else [])]
    rw [hcap]
    simp
  · show c3.status = c.status
    rw [hst, hk.2, hst1]

set_option maxRecDepth 100000 in
theorem Handshake_success_witness :
    (Handshake mysql (session [response [13, 162, 0, 0] zeros28 User scramble123 []])).2 =
        Completion.returned none ∧
      (Handshake mysql (session [response [13, 162, 0, 0] zeros28 User scramble123 []])).1.pkg.Sequence
        = 0 :=
  ⟨(Handshake_success mysql (session [response [13, 162, 0, 0] zeros28 User scramble123 []])
      (by decide) (by decide) (by decide)).1,
    (Handshake_success mysql (session [response [13, 162, 0, 0] zeros28 User scramble123 []])
      (by decide) (by decide) (by decide)).2.2.1⟩

theorem body_rejected (M : Mysql) (c : ClientConn) (flags skip name auth trailing spare : List Nat)
    (v : Nat) (hv : Uint32 flags = some v) (hf : flags.length = 4) (hs : skip.length = 28)
    (h0 : 0 ∉ name) (hrej : name ≠ User ∨ auth ≠ M.CalcPassword c.salt Password) :
    readHandshakeResponse.body M c (response flags skip name auth trailing) spare =
      ({ c with capability := v, user := name }, .returned (some (.sql
        (M.NewDefaultError M.ER_ACCESS_DENIED_ERROR [name, c.c.RemoteAddr, Yes])))) := by
  rw [body_response M c flags skip name auth trailing spare v hv hf hs h0, if_pos hrej]

/-- C12, as the code has it: with a wrong auth response `Handshake` returns the
access-denied error and the only packet written is the greeting; no ERROR packet is
written. -/
theorem Handshake_wrong_password_writes_no_error_packet :
    (Handshake mysql (session [response [13, 162, 0, 0] zeros28 User [1, 2, 3] []])).1.written =
        [List.replicate 4 0 ++ greetingLayout mysql 10001 2 (session []).salt] ∧
      (Handshake mysql (session [response [13, 162, 0, 0] zeros28 User [1, 2, 3] []])).2 =
        Completion.returned (some (.sql (mysql.NewDefaultError 1045
          [User, (session []).c.RemoteAddr, Yes]))) := by
  set_option maxRecDepth 100000 in decide

/-- C12, amended: for every handshake in which the auth response of the client is
incorrect, `Handshake` itself writes no packet after the greeting, neither an ERROR
packet nor an OK packet, and reports the failure by returning the access-denied error; a
caller that hands this error to `writeError` writes exactly one ERROR packet, which
carries the access-denied code. -/
theorem Handshake_rejected (M : Mysql) (c : ClientConn) (p : PacketIO)
    (flags skip name auth trailing spare : List Nat) (v : Nat)
    (h1 : (writeInitialHandshake M c).2 = Completion.returned none)
    (hread : M.ReadPacket (writeInitialHandshake M c).1.pkg =
      (p, response flags skip name auth trailing, spare, none))
    (hf : flags.length = 4) (hv : Uint32 flags = some v) (hs : skip.length = 28)
    (h0 : 0 ∉ name) (hwrong : auth ≠ M.CalcPassword c.salt Password)
    (hcode : (M.NewDefaultError M.ER_ACCESS_DENIED_ERROR [name, c.c.RemoteAddr, Yes]).Code =
      M.ER_ACCESS_DENIED_ERROR) :
    (Handshake M c).2 = Completion.returned (some (.sql
        (M.NewDefaultError M.ER_ACCESS_DENIED_ERROR [name, c.c.RemoteAddr, Yes]))) ∧
      (Handshake M c).1.written =
        c.written ++ [List.replicate 4 0 ++ greetingLayout M c.connectionId c.status c.salt] ∧
      (writeError M (Handshake M c).1 (.sql
        (M.NewDefaultError M.ER_ACCESS_DENIED_ERROR [name, c.c.RemoteAddr, Yes]))).1.written =
        c.written ++ [List.replicate 4 0 ++ greetingLayout M c.connectionId c.status c.salt,
          List.replicate 4 0 ++ [0xff] ++ littleEndian 2 M.ER_ACCESS_DENIED_ERROR ++
            (if v &&& M.CLIENT_PROTOCOL_41 > 0 then
              [0x23] ++ (M.NewDefaultError M.ER_ACCESS_DENIED_ERROR
                [name, c.c.RemoteAddr, Yes]).State else []) ++
            (M.NewDefaultError M.ER_ACCESS_DENIED_ERROR [name, c.c.RemoteAddr, Yes]).Message] := by
  have hsalt := writeInitialHandshake_returned M c none h1
  have hw := writeInitialHandshake_data M c hsalt
  rcases hr1 : writeInitialHandshake M c with ⟨c1, k1⟩
  rw [hr1] at h1 hread hw
  simp only at h1 hread
  subst h1
  have hc1 : c1 = (WritePacket M c (List.replicate 4 0 ++
      greetingLayout M c.connectionId c.status c.salt)).1 := (Prod.mk.inj hw).1
  have hsalt1 : c1.salt = c.salt := by rw [hc1]; rfl
  have haddr : c1.c = c.c := by rw [hc1]; rfl
  have hwr1 : c1.written = c.written ++ [List.replicate 4 0 ++
      greetingLayout M c.connectionId c.status c.salt] := by rw [hc1]; rfl
  have hr2 : readHandshakeResponse M c1 =
      ({ c1 with pkg := p, capability := v, user := name }, .returned (some (.sql
        (M.NewDefaultError M.ER_ACCESS_DENIED_ERROR [name, c.c.RemoteAddr, Yes])))) := by
    rw [readHandshakeResponse_of_read M c1 p _ spare hread,
      body_rejected M _ flags skip name auth trailing spare v hv hf hs h0
        (Or.inr (by rw [show ({ c1 with pkg := p } : ClientConn).salt = c.salt from hsalt1]
                    exact hwrong))]
    simp only [haddr]
  have hfinal : Handshake M c =
      ({ c1 with pkg := p, capability := v, user := name }, .returned (some (.sql
        (M.NewDefaultError M.ER_ACCESS_DENIED_ERROR [name, c.c.RemoteAddr, Yes])))) := by
    unfold Handshake
    rw [hr1]
    simp only []
    rw [hr2]
  rw [hfinal]
  refine ⟨rfl, hwr1, ?_⟩
  rw [writeError_data, WritePacket_written, hcode]
  show c1.written ++ _ = _
  rw [hwr1]
  simp

set_option maxRecDepth 100000 in
theorem Handshake_rejected_witness :
    (Handshake mysql (session [response [13, 162, 0, 0] zeros28 User [1, 2, 3] []])).1.written =
      (session [response [13, 162, 0, 0] zeros28 User [1, 2, 3] []]).written ++
        [List.replicate 4 0 ++ greetingLayout mysql 10001 2 (session []).salt] :=
  (Handshake_rejected mysql (session [response [13, 162, 0, 0] zeros28 User [1, 2, 3] []])
    { Sequence := 2, wire := [] } [13, 162, 0, 0] zeros28 User [1, 2, 3] [] [] 41485
    (by decide) (by decide) (by decide) (by decide) (by decide) (by decide) (by decide)
    (by decide)).2.1

/-- C20: `readHandshakeResponse` is not atomic on rejection.  For every payload laid out
as a handshake response whose credentials are rejected, the error returned is the
access-denied error and the database of the session is left as it was, but the user and
the capabilities of the session are the username and the flags the client declared, so
that an ERROR packet written afterwards carries `#` and the SQL state exactly when the
flags of the client contain `CLIENT_PROTOCOL_41`; the bytes after the auth response play
no part: any other bytes in their place give the same result. -/
theorem readHandshakeResponse_rejection (M : Mysql) (c : ClientConn) (p : PacketIO)
    (flags skip name auth trailing spare : List Nat) (v : Nat) (m : SqlError)
    (hread : M.ReadPacket c.pkg = (p, response flags skip name auth trailing, spare, none))
    (hf : flags.length = 4) (hv : Uint32 flags = some v) (hs : skip.length = 28)
    (h0 : 0 ∉ name) (hrej : name ≠ User ∨ auth ≠ M.CalcPassword c.salt Password) :
    readHandshakeResponse M c =
        ({ c with pkg := p, capability := v, user := name }, .returned (some (.sql
          (M.NewDefaultError M.ER_ACCESS_DENIED_ERROR [name, c.c.RemoteAddr, Yes])))) ∧
      (readHandshakeResponse M c).1.db = c.db ∧
      (writeError M (readHandshakeResponse M c).1 (.sql m)).1.written =
        c.written ++ [List.replicate 4 0 ++ [0xff] ++ littleEndian 2 m.Code ++
          (if v &&& M.CLIENT_PROTOCOL_41 > 0 then [0x23] ++ m.State else []) ++ m.Message] ∧
      ∀ trailing2 : List Nat,
        readHandshakeResponse.body M { c with pkg := p }
            (response flags skip name auth trailing2) spare =
          readHandshakeResponse M c := by
  have hr : readHandshakeResponse M c =
      ({ c with pkg := p, capability := v, user := name }, .returned (some (.sql
        (M.NewDefaultError M.ER_ACCESS_DENIED_ERROR [name, c.c.RemoteAddr, Yes])))) := by
    rw [readHandshakeResponse_of_read M c p _ spare hread,
      body_rejected M { c with pkg := p } flags skip name auth trailing spare v hv hf hs h0 hrej]
  refine ⟨hr, by rw [hr], ?_, ?_⟩
  · rw [hr, writeError_data, WritePacket_written]
  · intro trailing2
    rw [hr, body_rejected M { c with pkg := p } flags skip name auth trailing2 spare v hv hf hs h0
      hrej]

set_option maxRecDepth 100000 in
theorem readHandshakeResponse_rejection_witness :
    (readHandshakeResponse mysql
        { session [response [13, 0, 0, 0] zeros28 User [1, 2, 3] [9]] with
          capability := 512, db := [0x74] }).1.capability = 13 ∧
      (readHandshakeResponse mysql
        { session [response [13, 0, 0, 0] zeros28 User [1, 2, 3] [9]] with
          capability := 512, db := [0x74] }).1.db = [0x74] :=
  ⟨congrArg (fun r => r.1.capability)
      (readHandshakeResponse_rejection mysql
        { session [response [13, 0, 0, 0] zeros28 User [1, 2, 3] [9]] with
          capability := 512, db := [0x74] }
        { Sequence := 1, wire := [] } [13, 0, 0, 0] zeros28 User [1, 2, 3] [9] [] 13
        (mysql.NewError 0 []) rfl (by decide) (by decide) (by decide) (by decide)
        (Or.inr (by decide))).1,
    (readHandshakeResponse_rejection mysql
        { session [response [13, 0, 0, 0] zeros28 User [1, 2, 3] [9]] with
          capability := 512, db := [0x74] }
        { Sequence := 1, wire := [] } [13, 0, 0, 0] zeros28 User [1, 2, 3] [9] [] 13
        (mysql.NewError 0 []) rfl (by decide) (by decide) (by decide) (by decide)
        (Or.inr (by decide))).2.1⟩

/-! ## The OK packet read back -/

theorem decode_encode_int (n : Nat) (rest : List Nat) (hn : n < 2 ^ 64) :
    decodeLengthEncodedInt (mysqlPutLengthEncodedInt n ++ rest) = some (n, rest) := by
  unfold mysqlPutLengthEncodedInt
  by_cases h1 : n ≤ 250
  · simp [h1, decodeLengthEncodedInt]
  · rw [if_neg h1]
    by_cases h2 : n ≤ 0xffff
    · rw [if_pos h2]
      simp only [List.cons_append, List.nil_append, decodeLengthEncodedInt]
      norm_num [leValue, Nat.shiftRight_eq_div_pow]
      omega
    · rw [if_neg h2]
      by_cases h3 : n ≤ 0xffffff
      · rw [if_pos h3]
        simp only [List.cons_append, List.nil_append, decodeLengthEncodedInt]
        norm_num [leValue, Nat.shiftRight_eq_div_pow]
        omega
      · rw [if_neg h3]
        simp only [List.cons_append, List.nil_append, decodeLengthEncodedInt]
        norm_num [leValue, Nat.shiftRight_eq_div_pow]
        omega

/-- C15: for every affected-row count and insert id (64-bit) and every 16-bit status, the
packet `writeOK` writes under `CLIENT_PROTOCOL_41`, with the length-encoded integer of the
specification, decodes against the layout of the specification (4 reserved bytes, header
`0x00`, two length-encoded integers, status as 2 little-endian bytes, 2 reserved bytes) to
the same affected-row count, insert id and status, with no byte of the packet left. -/
theorem writeOK_roundtrip (M : Mysql) (c : ClientConn) (affectedRows insertId status : Nat)
    (hput : M.PutLengthEncodedInt = mysqlPutLengthEncodedInt)
    (hcap : c.capability &&& M.CLIENT_PROTOCOL_41 > 0)
    (ha : affectedRows < 2 ^ 64) (hi : insertId < 2 ^ 64) (hst : status < 2 ^ 16) :
    ∃ packet : List Nat,
      (writeOK M c
          (some { Status := status, InsertId := insertId, AffectedRows := affectedRows })).1.written =
        c.written ++ [packet] ∧
        decodeOK packet =
          some ({ Status := status, InsertId := insertId, AffectedRows := affectedRows }, []) := by
  refine ⟨_, by rw [writeOK_data, WritePacket_written], ?_⟩
  simp only [hput, if_pos hcap, littleEndian_two]
  have hlen : ¬ (List.replicate 4 0 ++ [0] ++ mysqlPutLengthEncodedInt affectedRows ++
      mysqlPutLengthEncodedInt insertId ++ ([status % 256, (status >>> 8) % 256] ++ [0, 0])).length
        < 4 := by
    simp
  have hdrop : (List.replicate 4 0 ++ [0] ++ mysqlPutLengthEncodedInt affectedRows ++
      mysqlPutLengthEncodedInt insertId ++ ([status % 256, (status >>> 8) % 256] ++ [0, 0])).drop 4
        = 0 :: (mysqlPutLengthEncodedInt affectedRows ++
          (mysqlPutLengthEncodedInt insertId ++ [status % 256, (status >>> 8) % 256, 0, 0])) := by
    simp [List.replicate]
  have hval : leValue [status % 256, (status >>> 8) % 256] = status := by
    rw [← littleEndian_two, leValue_littleEndian]
    exact Nat.mod_eq_of_lt hst
  unfold decodeOK
  rw [if_neg hlen, hdrop]
  simp only [decode_encode_int affectedRows _ ha, decode_encode_int insertId _ hi, hval]

theorem writeOK_roundtrip_witness :
    ∃ packet : List Nat,
      (writeOK mysql { session [] with capability := 512 }
        (some { Status := 2, InsertId := 70000, AffectedRows := 300 })).1.written =
          ({ session [] with capability := 512 } : ClientConn).written ++ [packet] ∧
        decodeOK packet = some ({ Status := 2, InsertId := 70000, AffectedRows := 300 }, []) :=
  writeOK_roundtrip mysql { session [] with capability := 512 } 300 70000 2 rfl (by decide)
    (by decide) (by decide) (by decide)

/-! ## The command loop -/

theorem Run.loop_succ (M : Mysql)
    (D : ClientConn → List Nat → List Nat → ClientConn × Completion)
    (fuel : Nat) (c : ClientConn) (r : ClientConn × LoopExit × List Event)
    (h : Run.loop M D fuel c = some r) : Run.loop M D (fuel + 1) c = some r := by
  induction fuel generalizing c r with
  | zero => simp [Run.loop] at h
  | succ n ih =>
    rw [Run.loop] at h ⊢
    rcases hread : M.ReadPacket c.pkg with ⟨p, data, spare, err⟩
    rw [hread] at h
    cases err with
    | some e => exact h
    | none =>
      simp only [] at h ⊢
      rcases hdisp : D { c with pkg := p } data spare with ⟨c2, k⟩
      rw [hdisp] at h
      cases k with
      | panicked => exact h
      | returned e =>
        simp only [] at h ⊢
        by_cases hclosed : c2.closed = true
        · rw [if_pos hclosed] at h ⊢
          exact h
        · rw [if_neg hclosed] at h ⊢
          cases hrec : Run.loop M D n { c2 with pkg := { c2.pkg with Sequence := 0 } } with
          | none => rw [hrec] at h; simp at h
          | some r2 =>
            rw [hrec] at h
            rw [ih _ r2 hrec]
            exact h

theorem Run.loop_add (M : Mysql)
    (D : ClientConn → List Nat → List Nat → ClientConn × Completion)
    (fuel k : Nat) (c : ClientConn) (r : ClientConn × LoopExit × List Event)
    (h : Run.loop M D fuel c = some r) : Run.loop M D (fuel + k) c = some r := by
  induction k with
  | zero => exact h
  | succ k ih => exact Run.loop_succ M D (fuel + k) c r ih

/-- The events the loop gives are those of the codec and of the dispatcher, and the session
and the exit it gives are those the events lead to. -/
theorem Run.loop_replay (M : Mysql)
    (D : ClientConn → List Nat → List Nat → ClientConn × Completion)
    (fuel : Nat) (c c1 : ClientConn) (exit : LoopExit) (log : List Event)
    (h : Run.loop M D fuel c = some (c1, exit, log)) : replay M D c log = some (c1, exit) := by
  induction fuel generalizing c c1 exit log with
  | zero => simp [Run.loop] at h
  | succ n ih =>
    rw [Run.loop] at h
    rcases hread : M.ReadPacket c.pkg with ⟨p, data, spare, err⟩
    rw [hread] at h
    cases err with
    | some e =>
      simp only [Option.some.injEq, Prod.mk.injEq] at h
      obtain ⟨h1, h2, h3⟩ := h
      subst h1 h2 h3
      simp only [replay, hread, if_true]
    | none =>
      simp only [] at h
      rcases hdisp : D { c with pkg := p } data spare with ⟨c2, k⟩
      rw [hdisp] at h
      cases k with
      | panicked =>
        simp only [Option.some.injEq, Prod.mk.injEq] at h
        obtain ⟨h1, h2, h3⟩ := h
        subst h1 h2 h3
        simp only [replay, hread, hdisp, and_self, if_true]
      | returned e =>
        simp only [] at h
        by_cases hclosed : c2.closed = true
        · rw [if_pos hclosed] at h
          simp only [Option.some.injEq, Prod.mk.injEq] at h
          obtain ⟨h1, h2, h3⟩ := h
          subst h1 h2 h3
          simp only [replay, hread, hdisp, hclosed, and_self, if_true]
        · rw [if_neg hclosed] at h
          cases hrec : Run.loop M D n { c2 with pkg := { c2.pkg with Sequence := 0 } } with
          | none => rw [hrec] at h; simp at h
          | some r2 =>
            obtain ⟨c3, exit3, log3⟩ := r2
            rw [hrec] at h
            simp only [Option.some.injEq, Prod.mk.injEq] at h
            obtain ⟨h1, h2, h3⟩ := h
            subst h1 h2 h3
            have hr := ih _ c3 exit3 log3 hrec
            have hc2 : c2.closed = false := by simpa using hclosed
            simp only [replay, hread, hdisp, hc2, and_self, if_true, Bool.false_eq_true,
              if_false]
            simp only [hc2] at hr
            exact hr

/-- Events that the codec and the dispatcher lead through are the events of the loop: as
many iterations as there are events are enough for the loop to end with them. -/
theorem Run.replay_loop (M : Mysql)
    (D : ClientConn → List Nat → List Nat → ClientConn × Completion)
    (n : Nat) (c c1 : ClientConn) (exit : LoopExit) (log : List Event)
    (hn : log.length ≤ n) (h : replay M D c log = some (c1, exit)) :
    Run.loop M D n c = some (c1, exit, log) := by
  induction n generalizing c log with
  | zero =>
    have hl : log = [] := List.eq_nil_of_length_eq_zero (by omega)
    subst hl
    simp [replay] at h
  | succ n ih =>
    rw [Run.loop]
    rcases hread : M.ReadPacket c.pkg with ⟨p, data, spare, err⟩
    match log, hn, h with
    | [], _, h => simp [replay] at h
    | [.dispatch _ _ _], _, h => simp [replay] at h
    | .dispatch _ _ _ :: _ :: _, _, h => simp [replay] at h
    | [.read s none], _, h =>
      simp only [replay, hread] at h
      cases err with
      | none => simp at h
      | some e =>
        simp only [] at h ⊢
        by_cases hs : s = c.pkg.Sequence
        · rw [if_pos hs] at h
          simp only [Option.some.injEq, Prod.mk.injEq] at h
          rw [← h.1, ← h.2, hs]
        · rw [if_neg hs] at h
          simp at h
    | .read s none :: _ :: _, _, h => simp [replay] at h
    | [.read s (some d)], _, h => simp [replay] at h
    | .read s (some d) :: .read _ _ :: _, _, h => simp [replay] at h
    | .read s (some d) :: .dispatch d2 ca pa :: rest, hn, h =>
      simp only [replay, hread] at h
      cases err with
      | some e => simp at h
      | none =>
        simp only [] at h ⊢
        by_cases hcond : s = c.pkg.Sequence ∧ d = data ∧ d2 = data
        · rw [if_pos hcond] at h
          obtain ⟨hs, hd, hd2⟩ := hcond
          rw [hs, hd, hd2]
          rcases hdisp : D { c with pkg := p } data spare with ⟨c2, k⟩
          rw [hdisp] at h
          cases k with
          | panicked =>
            simp only [] at h ⊢
            by_cases hcond2 : pa = true ∧ ca = c2.closed ∧ rest = []
            · rw [if_pos hcond2] at h
              obtain ⟨hp, hca, hrest⟩ := hcond2
              simp only [Option.some.injEq, Prod.mk.injEq] at h
              rw [← h.1, ← h.2, hp, hca, hrest]
            · rw [if_neg hcond2] at h
              simp at h
          | returned e =>
            simp only [] at h ⊢
            by_cases hcond2 : pa = false ∧ ca = c2.closed
            · rw [if_pos hcond2] at h
              obtain ⟨hp, hca⟩ := hcond2
              by_cases hclosed : c2.closed = true
              · rw [if_pos hclosed] at h ⊢
                by_cases hrest : rest = []
                · rw [if_pos hrest] at h
                  simp only [Option.some.injEq, Prod.mk.injEq] at h
                  rw [← h.1, ← h.2, hp, hca, hrest, hclosed]
                · rw [if_neg hrest] at h
                  simp at h
              · rw [if_neg hclosed] at h ⊢
                have hlen : rest.length ≤ n := by
                  simp only [List.length_cons] at hn
                  omega
                have hc2 : c2.closed = false := by simpa using hclosed
                rw [ih _ rest hlen h, hp, hca, hc2]
            · rw [if_neg hcond2] at h
              simp at h
        · rw [if_neg hcond] at h
          simp at h

theorem Run.loop_orderly (M : Mysql)
    (D : ClientConn → List Nat → List Nat → ClientConn × Completion)
    (fuel : Nat) (c c1 : ClientConn) (exit : LoopExit) (log : List Event) (first : Bool)
    (hfirst : first = true ∨ c.pkg.Sequence = 0)
    (h : Run.loop M D fuel c = some (c1, exit, log)) :
    orderly first log = true ∧ payloadsDispatched log = payloadsRead log := by
  have hseq : (first || c.pkg.Sequence == 0) = true := by
    rcases hfirst with hf | hz
    · simp [hf]
    · simp [hz]
  induction fuel generalizing c c1 exit log first with
  | zero => simp [Run.loop] at h
  | succ n ih =>
    rw [Run.loop] at h
    rcases hread : M.ReadPacket c.pkg with ⟨p, data, spare, err⟩
    rw [hread] at h
    cases err with
    | some e =>
      simp only [Option.some.injEq, Prod.mk.injEq] at h
      rw [← h.2.2]
      exact ⟨by simpa [orderly] using hseq, rfl⟩
    | none =>
      simp only [] at h
      rcases hdisp : D { c with pkg := p } data spare with ⟨c2, k⟩
      rw [hdisp] at h
      cases k with
      | panicked =>
        simp only [Option.some.injEq, Prod.mk.injEq] at h
        rw [← h.2.2]
        refine ⟨?_, rfl⟩
        simp only [orderly, hseq, beq_self_eq_true, Bool.or_true, if_true, List.isEmpty,
          Bool.and_self]
      | returned e =>
        simp only [] at h
        by_cases hclosed : c2.closed = true
        · rw [if_pos hclosed] at h
          simp only [Option.some.injEq, Prod.mk.injEq] at h
          rw [← h.2.2]
          refine ⟨?_, rfl⟩
          simp only [orderly, hseq, beq_self_eq_true, Bool.or_false, if_true, List.isEmpty,
            Bool.and_self]
        · rw [if_neg hclosed] at h
          cases hrec : Run.loop M D n { c2 with pkg := { c2.pkg with Sequence := 0 } } with
          | none => rw [hrec] at h; simp at h
          | some r2 =>
            obtain ⟨c3, exit3, log3⟩ := r2
            rw [hrec] at h
            simp only [Option.some.injEq, Prod.mk.injEq] at h
            rw [← h.2.2]
            have hr := ih { c2 with pkg := { c2.pkg with Sequence := 0 } } c3 exit3 log3 false
              (Or.inr rfl) hrec (by simp)
            refine ⟨?_, ?_⟩
            · simp only [orderly, hseq, beq_self_eq_true, Bool.or_false, Bool.false_eq_true,
                if_false, Bool.and_self, Bool.true_and, hr.1]
            · simp only [payloadsDispatched, payloadsRead, hr.2]

/-- A loop left by the `return` after a dispatch is left with the session closed. -/
theorem Run.loop_sessionClosed (M : Mysql)
    (D : ClientConn → List Nat → List Nat → ClientConn × Completion)
    (fuel : Nat) (c c1 : ClientConn) (log : List Event)
    (h : Run.loop M D fuel c = some (c1, LoopExit.sessionClosed, log)) : c1.closed = true := by
  induction fuel generalizing c log with
  | zero => simp [Run.loop] at h
  | succ n ih =>
    rw [Run.loop] at h
    rcases hread : M.ReadPacket c.pkg with ⟨p, data, spare, err⟩
    rw [hread] at h
    cases err with
    | some e => simp at h
    | none =>
      simp only [] at h
      rcases hdisp : D { c with pkg := p } data spare with ⟨c2, k⟩
      rw [hdisp] at h
      cases k with
      | panicked => simp at h
      | returned e =>
        simp only [] at h
        by_cases hclosed : c2.closed = true
        · rw [if_pos hclosed] at h
          simp only [Option.some.injEq, Prod.mk.injEq] at h
          rw [← h.1]
          exact hclosed
        · rw [if_neg hclosed] at h
          cases hrec : Run.loop M D n { c2 with pkg := { c2.pkg with Sequence := 0 } } with
          | none => rw [hrec] at h; simp at h
          | some r2 =>
            obtain ⟨c3, exit3, log3⟩ := r2
            rw [hrec] at h
            simp only [Option.some.injEq, Prod.mk.injEq] at h
            obtain ⟨h1, h2, h3⟩ := h
            subst h1 h2
            exact ih _ log3 hrec

theorem Close_closes (c : ClientConn) :
    (Close c).1.closed = true ∧
      (Close c).1.c.closeCalls = c.c.closeCalls + (if c.closed then 0 else 1) := by
  unfold Close
  by_cases h : c.closed = true
  · simp [h]
  · simp [h]

/-- C18, as the code has it: a dispatcher that marks the session closed without closing
the transport ends the loop; `Run` returns with the session closed, and its `Close` has
returned at the guard `if c.closed`: the transport was closed 0 times, not once. -/
theorem Run_marked_closed_transport_open :
    (Run mysql markClosedDispatcher 3 (session [[3, 1]])).map
        (fun r => (r.1.closed, r.1.c.closeCalls, r.2.1)) =
      some (true, 0, Completion.returned none) := by
  decide

/-- C18, amended: for every way the loop of `Run` ends (a failed read, a dispatch that
leaves the session closed, a panic raised by the dispatch), `Run` returns to its caller,
the panic being stopped by `recover()`, and at the return the session is closed.  The
`Close` that `Run` defers closes the transport once when the session is still open as the
loop is left, and not at all when the session is marked closed by then, as it is after a
dispatch that left it closed.  The session the loop ends with is the one the calls of
`ReadPacket` and `DispatchMessage` lead to, and more iterations allowed give the same
result. -/
theorem Run_returns_closed (M : Mysql)
    (D : ClientConn → List Nat → List Nat → ClientConn × Completion)
    (fuel : Nat) (c c1 : ClientConn) (exit : LoopExit) (log : List Event)
    (hloop : Run.loop M D fuel c = some (c1, exit, log)) :
    replay M D c log = some (c1, exit) ∧
      (∀ k, Run M D (fuel + k) c = some ((Close c1).1, Completion.returned none, log)) ∧
      (Close c1).1.closed = true ∧
      (Close c1).1.c.closeCalls = c1.c.closeCalls + (if c1.closed then 0 else 1) ∧
      (exit = LoopExit.sessionClosed → (Close c1).1.c.closeCalls = c1.c.closeCalls) := by
  refine ⟨Run.loop_replay M D fuel c c1 exit log hloop, ?_, (Close_closes c1).1,
    (Close_closes c1).2, ?_⟩
  · intro k
    unfold Run
    rw [Run.loop_add M D fuel k c _ hloop]
  · intro hexit
    subst hexit
    rw [(Close_closes c1).2, Run.loop_sessionClosed M D fuel c c1 log hloop]
    rfl

/-- A session whose second command is an empty payload: the dispatch of it panics, `Run`
returns all the same, with the session closed and the transport closed once, also when 2
more iterations are allowed than the 5 that are enough. -/
theorem Run_returns_closed_witness :
    (Run mysql quitDispatcher (5 + 2) (session [[3, 1], [], [1]])).map
        (fun r => (r.1.closed, r.1.c.closeCalls, r.2.1, r.2.2)) =
      some (true, 1, Completion.returned none,
        [.read 0 (some [3, 1]), .dispatch [3, 1] false false,
         .read 0 (some []), .dispatch [] false true]) :=
  congrArg
    (fun o : Option (ClientConn × Completion × List Event) =>
      o.map (fun r => (r.1.closed, r.1.c.closeCalls, r.2.1, r.2.2)))
    ((Run_returns_closed mysql quitDispatcher 5 (session [[3, 1], [], [1]]) _ LoopExit.fault _
      rfl).2.1 2)

/-- C19: in `Run`, whenever the loop ends, its events are those of the codec and of the
dispatcher: every read is a call of `ReadPacket` in the state reached, every payload read
is handed to `DispatchMessage` once, right after it is read and in the order read, and the
session the loop ends with is the one these calls lead to; every read after a dispatch
that left the session open finds the sequence counter at 0; nothing is read or dispatched
after a failed read, after a dispatch that left the session closed, or after a dispatch
that panicked; and as many iterations as there are events are enough. -/
theorem Run_order (M : Mysql)
    (D : ClientConn → List Nat → List Nat → ClientConn × Completion)
    (fuel : Nat) (c c1 : ClientConn) (exit : LoopExit) (log : List Event)
    (hloop : Run.loop M D fuel c = some (c1, exit, log)) :
    Run M D fuel c = some ((Close c1).1, Completion.returned none, log) ∧
      replay M D c log = some (c1, exit) ∧
      Run.loop M D log.length c = some (c1, exit, log) ∧
      orderly true log = true ∧ payloadsDispatched log = payloadsRead log := by
  have hrep := Run.loop_replay M D fuel c c1 exit log hloop
  refine ⟨?_, hrep, Run.replay_loop M D log.length c c1 exit log le_rfl hrep,
    Run.loop_orderly M D fuel c c1 exit log true (Or.inl rfl) hloop⟩
  unfold Run
  rw [hloop]

/-- A session that starts with the sequence counter at 7 and receives two queries, a quit
and one more query: `Run` dispatches the three first payloads in order, reads the second
and the third with the counter at 0, and never reads the fourth; checked against the codec
and the dispatcher, these events end with the session closed and 3 payloads consumed. -/
theorem Run_order_witness :
    (Run mysql quitDispatcher 5
          { session [] with pkg := { Sequence := 7, wire := [[3, 1], [3, 2], [1], [3, 4]] } }).map
        (fun r => r.2.2) =
      some [.read 7 (some [3, 1]), .dispatch [3, 1] false false,
            .read 0 (some [3, 2]), .dispatch [3, 2] false false,
            .read 0 (some [1]), .dispatch [1] true false] ∧
    (replay mysql quitDispatcher
          { session [] with pkg := { Sequence := 7, wire := [[3, 1], [3, 2], [1], [3, 4]] } }
          [.read 7 (some [3, 1]), .dispatch [3, 1] false false,
           .read 0 (some [3, 2]), .dispatch [3, 2] false false,
           .read 0 (some [1]), .dispatch [1] true false]).map
        (fun r => (r.1.closed, r.1.pkg.wire, r.2)) =
      some (true, [[3, 4]], LoopExit.sessionClosed) :=
  have h := Run_order mysql quitDispatcher 5
    { session [] with pkg := { Sequence := 7, wire := [[3, 1], [3, 2], [1], [3, 4]] } }
    _ LoopExit.sessionClosed _ rfl
  ⟨congrArg
      (fun o : Option (ClientConn × Completion × List Event) => o.map (fun r => r.2.2)) h.1,
    congrArg
      (fun o : Option (ClientConn × LoopExit) => o.map (fun r => (r.1.closed, r.1.pkg.wire, r.2)))
      h.2.1⟩

end Server
